import Mathlib

/-!
# Event flags of the orbis kernel (`orbis-kernel/src/evf.cpp`)

A shallow embedding of `orbis::EventFlag::wait`, `orbis::EventFlag::tryWait` and
`orbis::EventFlag::notify`, followed by the properties established about them.

Conventions of the embedding.

* `std::uint64_t` and `std::uint32_t` values are natural numbers; arithmetic that can wrap
  is written with an explicit `% 2 ^ 32`.
* A `Thread *` is a natural number (its address, `0` for `nullptr`); the thread objects live
  in a table indexed by address.
* Every operation runs under `queueMtx`, so one call is one atomic state transformer.  The
  blocking `wait` is cut at its only suspension point: `waitEnter` is the code before the
  loop and `waitLoopBody` is one pass through the loop, from its top to a `return`, to
  `std::abort()` or to `sync_cv.wait`; `waitResume` is the pass made after a wake, with
  `update_timeout` applied first.
* The loops of `notify` are bounded by an explicit fuel argument; a run that needs more
  iterations than the fuel allows ends in `Outcome.outOfFuel`, and undefined behaviour
  (a `memmove` whose element count is negative, an access outside the array) ends in
  `Outcome.fault`.
* `evf.hpp` is not part of the sources at hand.  What it declares (the wait-mode and
  attribute constants, `WaitingThread::test`, `WaitingThread::applyClear`, the array bound)
  is modelled from the specification and marked as such.
* `notifyRef` is the list-level reference of `notify`, written from the specification; the
  array code is compared with it.
-/

namespace orbis

/-! ## Data model -/

/-- Modelled from the spec: the match-mode half of the `waitMode` byte, whose bit
assignment (`evf.hpp`) is missing.  AND: all requested bits must be set; OR: at least one
requested bit must be set. -/
inductive MatchMode where
  | And
  | Or
deriving DecidableEq, Repr, Inhabited

/-- Modelled from the spec: the clear-mode half of the `waitMode` byte, whose bit
assignment (`evf.hpp`) is missing.  ClearAll resets the whole pattern, ClearMatched clears
the requested bits, NoClear leaves the pattern alone. -/
inductive ClearMode where
  | ClearAll
  | ClearMatched
  | NoClear
deriving DecidableEq, Repr, Inhabited

/-- Modelled from the spec: the `std::uint8_t waitMode` argument, decoded into the match
mode and the clear mode it is a composite of (the encoding constants of `evf.hpp` are
missing). -/
structure WaitMode where
  matchMode : MatchMode
  clearMode : ClearMode
deriving DecidableEq, Repr, Inhabited

/-- The error codes returned by `wait` and `tryWait`.  `ok` is the value-initialised
`ErrorCode` of `return {}`.  `ACCES` is what the code returns for a deleted flag (the
specification calls this outcome `Deleted`), `PERM` is `PermissionDenied`. -/
inductive ErrorCode where
  | ok
  | ACCES
  | CANCELED
  | TIMEDOUT
  | PERM
  | BUSY
deriving DecidableEq, Repr, Inhabited

/-- The `EventFlag::NotifyType` argument of `notify`. -/
inductive NotifyType where
  | Set
  | Cancel
  | Destroy
deriving DecidableEq, Repr, Inhabited

/-- An entry of the waiter array: `EventFlag::WaitingThread`. -/
structure WaitingThread where
  thread : Nat
  bitPattern : Nat
  waitMode : WaitMode
deriving DecidableEq, Repr, Inhabited

/-- The bitwise complement `~x` of a `std::uint64_t`. -/
def not64 (x : Nat) : Nat := 2 ^ 64 - 1 - x % 2 ^ 64

/-- Modelled from the spec: `WaitingThread::test` of the missing `evf.hpp`.  AND mode:
`(pattern & bitPattern) == bitPattern`; OR mode: `(pattern & bitPattern) != 0`. -/
def WaitingThread.test (w : WaitingThread) (value : Nat) : Bool :=
  match w.waitMode.matchMode with
  | .And => (value &&& w.bitPattern) == w.bitPattern
  | .Or => (value &&& w.bitPattern) != 0

/-- Modelled from the spec: `WaitingThread::applyClear` of the missing `evf.hpp`.
ClearAll returns 0, ClearMatched returns `pattern & ~bitPattern`, NoClear returns the
pattern unchanged. -/
def WaitingThread.applyClear (w : WaitingThread) (value : Nat) : Nat :=
  match w.waitMode.clearMode with
  | .ClearAll => 0
  | .ClearMatched => value &&& not64 w.bitPattern
  | .NoClear => value

/-- The part of `orbis::Thread` that `evf.cpp` touches: `retval[0]` (the result pattern)
and `retval[1]` (the canceled flag). -/
structure Thread where
  retval0 : Nat
  retval1 : Nat
deriving DecidableEq, Repr, Inhabited

/-- The fields of `orbis::EventFlag` used by `evf.cpp`.  `attrSingle` is
`attrs & kEvfAttrSingle` and `attrThFifo` is `attrs & kEvfAttrThFifo` (the two constants are
declared in the missing `evf.hpp`).  `waitingThreads` is the whole fixed-size array, stale
slots included, so `std::size(waitingThreads)` is its length; `waitingThreadsCount` is the
`std::uint32_t` counter of valid slots. -/
structure EventFlag where
  isDeleted : Bool
  attrSingle : Bool
  attrThFifo : Bool
  value : Nat
  waitingThreads : List WaitingThread
  waitingThreadsCount : Nat
deriving DecidableEq, Repr, Inhabited

/-- The memory the three operations act on: the event flag, the thread objects by address,
and the log of `sync_cv.notify_one` calls (the address of the thread signalled, the most
recent call first). -/
structure World where
  evf : EventFlag
  threads : Nat → Thread
  notified : List Nat

/-- Result of running code that may hit undefined behaviour or exhaust its fuel. -/
inductive Outcome (α : Type) where
  | done (a : α)
  | fault
  | outOfFuel

/-- Whether a run returned to its caller. -/
def Outcome.isDone {α : Type} : Outcome α → Bool
  | .done _ => true
  | .fault => false
  | .outOfFuel => false

/-- Assignment to one thread object of the table. -/
def setThread (threads : Nat → Thread) (addr : Nat) (t : Thread) : Nat → Thread :=
  fun a => if a = addr then t else threads a

/-! ## `tryWait` -/

/-- The function `orbis::EventFlag::tryWait`, lines 98-119. -/
def tryWait (w : World) (thread : Nat) (waitMode : WaitMode) (bitPattern : Nat) :
    ErrorCode × World :=
  if w.evf.isDeleted then
    (ErrorCode.ACCES, w)
  else
    let waitingThread : WaitingThread :=
      { thread := 0, bitPattern := bitPattern, waitMode := waitMode }
    let patValue := w.evf.value
    if waitingThread.test patValue then
      let resultValue := waitingThread.applyClear patValue
      (ErrorCode.ok,
        { w with
          evf := { w.evf with value := resultValue }
          threads := setThread w.threads thread
            { w.threads thread with retval0 := resultValue } })
    else
      (ErrorCode.BUSY, w)

/-! ## `wait` -/

/-- How one pass through the loop of `wait` ends: with a `return`, at the suspension point
`sync_cv.wait`, or in `std::abort()`. -/
inductive WaitStep where
  | ret (code : ErrorCode)
  | suspend
  | abort
deriving DecidableEq, Repr, Inhabited

/-- The code of `wait` before its loop, lines 32-34: both result slots of the caller are
zeroed. -/
def waitEnter (w : World) (thread : Nat) : World :=
  { w with threads := setThread w.threads thread { retval0 := 0, retval1 := 0 } }

/-- One pass through the `while (true)` loop of `orbis::EventFlag::wait`, lines 37-92.
`timeout` is `none` for a null pointer and `some t` for a pointer to the value `t`. -/
def waitLoopBody (w : World) (thread : Nat) (waitMode : WaitMode) (bitPattern : Nat)
    (timeout : Option Nat) : WaitStep × World :=
  if w.evf.isDeleted then
    (WaitStep.ret ErrorCode.ACCES, w)
  else if (w.threads thread).retval1 ≠ 0 then
    (WaitStep.ret ErrorCode.CANCELED, w)
  else
    let waitingThread : WaitingThread :=
      { thread := thread, bitPattern := bitPattern, waitMode := waitMode }
    let patValue := w.evf.value
    if waitingThread.test patValue then
      let resultValue := waitingThread.applyClear patValue
      (WaitStep.ret ErrorCode.ok,
        { w with
          evf := { w.evf with value := resultValue }
          threads := setThread w.threads thread
            { w.threads thread with retval0 := resultValue } })
    else if timeout = some 0 then
      (WaitStep.ret ErrorCode.TIMEDOUT, w)
    else if w.evf.attrSingle ∧ w.evf.waitingThreadsCount ≠ 0 then
      (WaitStep.ret ErrorCode.PERM,
        { w with evf := { w.evf with waitingThreadsCount := 1 } })
    else
      let position := if w.evf.attrSingle then 0 else w.evf.waitingThreadsCount
      let counted : EventFlag :=
        { w.evf with waitingThreadsCount := (w.evf.waitingThreadsCount + 1) % 2 ^ 32 }
      if position ≥ w.evf.waitingThreads.length then
        (WaitStep.abort, { w with evf := counted })
      else
        (WaitStep.suspend,
          { w with
            evf := { counted with
              waitingThreads := counted.waitingThreads.set position waitingThread } })

/-- The first pass of a `wait` call: the entry code followed by the loop body. -/
def waitFirst (w : World) (thread : Nat) (waitMode : WaitMode) (bitPattern : Nat)
    (timeout : Option Nat) : WaitStep × World :=
  waitLoopBody (waitEnter w thread) thread waitMode bitPattern timeout

/-- The lambda `update_timeout` of `wait`, lines 20-30: the new value of `*timeout` (when
the pointer is not null) from `fullTimeout` and the microseconds `elapsed` since entry. -/
def update_timeout (timeout : Option Nat) (fullTimeout elapsed : Nat) : Option Nat :=
  match timeout with
  | none => none
  | some _ =>
    if fullTimeout > elapsed then some ((fullTimeout - elapsed) % 2 ^ 32) else some 0

/-- The code of `wait` that runs when `sync_cv.wait` comes back, lines 85-91, followed by
the next pass of the loop: with a timeout pointer `update_timeout` rewrites `*timeout` from
the microseconds `elapsed` since entry, then the loop body runs again.  The second
component is the new `*timeout`. -/
def waitResume (w : World) (thread : Nat) (waitMode : WaitMode) (bitPattern : Nat)
    (timeout : Option Nat) (fullTimeout elapsed : Nat) : (WaitStep × World) × Option Nat :=
  (waitLoopBody w thread waitMode bitPattern (update_timeout timeout fullTimeout elapsed),
    update_timeout timeout fullTimeout elapsed)

/-! ## `notify` -/

/-- The call `std::memmove(arr + dst, arr + src, n * sizeof(*arr))` inside one array, for
ranges that lie inside it: slots `dst .. dst + n - 1` receive the old contents of slots
`src .. src + n - 1`, every other slot keeps its contents. -/
def memmove (arr : List WaitingThread) (dst src n : Nat) : List WaitingThread :=
  arr.take dst ++ ((arr.drop src).take n ++ arr.drop (dst + n))

/-- The locals of `notify` that the lambda `testThread` captures by reference, together
with the memory. -/
structure NotifyFrame where
  world : World
  count : Nat
  patValue : Nat

/-- The lambda `testThread` of `notify`, lines 132-154, applied to `waitingThreads + idx`.
The `memmove` moves `count - (idx + 1)` entries; when that difference is negative the byte
count wraps around to nearly `2 ^ 64` and the call is undefined behaviour, as is a source
range `idx + 1 .. count - 1` that reaches past the end of the array or a read of a slot
outside the array.  The writes that precede the `memmove` in the source are not observable
after a fault, so the fault is reported in their place. -/
def testThread (type : NotifyType) (f : NotifyFrame) (idx : Nat) :
    Outcome (NotifyFrame × Bool) :=
  match f.world.evf.waitingThreads[idx]? with
  | none => Outcome.fault
  | some thread =>
    if type = NotifyType.Set ∧ thread.test f.patValue = false then
      Outcome.done (f, false)
    else
      let resultValue := thread.applyClear f.patValue
      let target := f.world.threads thread.thread
      let canceled := if type = NotifyType.Cancel then 1 else target.retval1
      let threads := setThread f.world.threads thread.thread
        { retval0 := resultValue, retval1 := canceled }
      let notified := thread.thread :: f.world.notified
      let counter := (f.world.evf.waitingThreadsCount + (2 ^ 32 - 1)) % 2 ^ 32
      if f.count < idx + 1 ∨ f.world.evf.waitingThreads.length < f.count then
        Outcome.fault
      else
        Outcome.done
          ({ world :=
              { evf := { f.world.evf with
                  waitingThreadsCount := counter
                  waitingThreads :=
                    memmove f.world.evf.waitingThreads idx (idx + 1) (f.count - (idx + 1)) }
                threads := threads
                notified := notified }
             count := f.count - 1
             patValue := resultValue }, true)

/-- The loop of lines 158-165 (`FIFO` set), with loop variable `i` and running `result`. -/
def notifyFifoLoop (type : NotifyType) :
    Nat → NotifyFrame → Nat → Nat → Outcome (NotifyFrame × Nat)
  | 0, _, _, _ => Outcome.outOfFuel
  | fuel + 1, f, i, result =>
    if i > 0 then
      match testThread type f (i - 1) with
      | Outcome.done r =>
        if r.2 then notifyFifoLoop type fuel r.1 i (result + 1)
        else notifyFifoLoop type fuel r.1 (i - 1) result
      | Outcome.fault => Outcome.fault
      | Outcome.outOfFuel => Outcome.outOfFuel
    else
      Outcome.done (f, result)

/-- The loop of lines 167-174 (`FIFO` not set), with loop variable `i` and running
`result`. -/
def notifyLoop (type : NotifyType) :
    Nat → NotifyFrame → Nat → Nat → Outcome (NotifyFrame × Nat)
  | 0, _, _, _ => Outcome.outOfFuel
  | fuel + 1, f, i, result =>
    if i < f.count then
      match testThread type f i with
      | Outcome.done r =>
        if r.2 then notifyLoop type fuel r.1 i (result + 1)
        else notifyLoop type fuel r.1 (i + 1) result
      | Outcome.fault => Outcome.fault
      | Outcome.outOfFuel => Outcome.outOfFuel
    else
      Outcome.done (f, result)

/-- The code of `notify` before its loops, lines 123-130. -/
def notifyBegin (w : World) (type : NotifyType) (bits : Nat) : NotifyFrame :=
  { world :=
      if type = NotifyType.Destroy then { w with evf := { w.evf with isDeleted := true } }
      else w
    count := w.evf.waitingThreadsCount
    patValue := if type = NotifyType.Set then w.evf.value ||| bits else w.evf.value }

/-- The code of `notify` after its loops, lines 177-182. -/
def notifyEnd (type : NotifyType) (bits : Nat) (r : NotifyFrame × Nat) : World × Nat :=
  ({ r.1.world with
      evf := { r.1.world.evf with
        value := if type = NotifyType.Cancel then bits else r.1.patValue } }, r.2)

/-- The function `orbis::EventFlag::notify`, lines 121-183, with `fuel` bounding the number
of loop iterations. -/
def notify (fuel : Nat) (w : World) (type : NotifyType) (bits : Nat) :
    Outcome (World × Nat) :=
  let f := notifyBegin w type bits
  let scan :=
    if w.evf.attrThFifo then notifyFifoLoop type fuel f f.count 0
    else notifyLoop type fuel f 0 0
  match scan with
  | Outcome.done r => Outcome.done (notifyEnd type bits r)
  | Outcome.fault => Outcome.fault
  | Outcome.outOfFuel => Outcome.outOfFuel

/-! ## Sample states -/

/-- A thread table in which every result slot is zero. -/
def idleThreads : Nat → Thread := fun _ => { retval0 := 0, retval1 := 0 }

/-- An event flag whose array of `cap` slots starts with the entries `queue`, all of them
counted as valid, together with idle threads and an empty wake log. -/
def mkWorld (single fifo deleted : Bool) (value : Nat) (queue : List WaitingThread)
    (cap : Nat) : World :=
  { evf :=
      { isDeleted := deleted
        attrSingle := single
        attrThFifo := fifo
        value := value
        waitingThreads := queue ++ List.replicate (cap - queue.length) default
        waitingThreadsCount := queue.length }
    threads := idleThreads
    notified := [] }

/-- A live flag with pattern `0b110`, no attributes, an empty queue of four slots. -/
def sampleOpen : World := mkWorld false false false 6 [] 4

/-- A live flag with pattern `0b001`, no attributes, an empty queue of four slots. -/
def sampleOne : World := mkWorld false false false 1 [] 4

/-- A live `SINGLE` flag with pattern 0 whose queue holds thread 7 waiting for bit 0. -/
def sampleSingle : World :=
  mkWorld true false false 0
    [{ thread := 7, bitPattern := 1, waitMode := { matchMode := .And, clearMode := .ClearAll } }] 4

/-- A deleted flag with pattern `0b110`. -/
def sampleDeleted : World := mkWorld false false true 6 [] 4

/-- A live flag without `FIFO`, pattern `0b100`, whose queue holds thread 1 (AND, mask
`0b001`, ClearAll) and thread 2 (OR, mask `0b110`, ClearMatched) in an array of four slots. -/
def plainTwo : World :=
  mkWorld false false false 4
    [{ thread := 1, bitPattern := 1, waitMode := { matchMode := .And, clearMode := .ClearAll } },
     { thread := 2, bitPattern := 6, waitMode := { matchMode := .Or, clearMode := .ClearMatched } }]
    4

/-- A live `FIFO` flag with pattern 0 whose queue holds thread 1 (AND, mask `0b001`,
ClearAll) in an array of four slots. -/
def fifoOne : World :=
  mkWorld false true false 0
    [{ thread := 1, bitPattern := 1, waitMode := { matchMode := .And, clearMode := .ClearAll } }] 4

/-- A live `FIFO` flag with pattern 0 whose queue holds thread 1 (AND, mask `0b001`,
ClearAll) and thread 2 (AND, mask `0b010`, ClearMatched) in an array of four slots. -/
def fifoTwo : World :=
  mkWorld false true false 0
    [{ thread := 1, bitPattern := 1, waitMode := { matchMode := .And, clearMode := .ClearAll } },
     { thread := 2, bitPattern := 2, waitMode := { matchMode := .And, clearMode := .ClearMatched } }]
    4

/-- A live `FIFO` flag with pattern 0 whose queue holds thread 1 (AND, mask `0b001`,
NoClear) in an array of four slots. -/
def fifoNoClear : World :=
  mkWorld false true false 0
    [{ thread := 1, bitPattern := 1, waitMode := { matchMode := .And, clearMode := .NoClear } }] 4

/-- The scenario flag: `FIFO`, pattern 0, waiter A (thread 1, AND, mask `0b011`,
ClearMatched) enqueued first and waiter B (thread 2, AND, mask `0b100`, ClearMatched)
enqueued second, in an array of four slots. -/
def scenarioAB : World :=
  mkWorld false true false 0
    [{ thread := 1, bitPattern := 3, waitMode := { matchMode := .And, clearMode := .ClearMatched } },
     { thread := 2, bitPattern := 4, waitMode := { matchMode := .And, clearMode := .ClearMatched } }]
    4

/-- A live flag without attributes, pattern 0, whose array of two slots is full. -/
def fullQueue : World :=
  mkWorld false false false 0
    [{ thread := 1, bitPattern := 1, waitMode := { matchMode := .And, clearMode := .ClearAll } },
     { thread := 2, bitPattern := 2, waitMode := { matchMode := .And, clearMode := .ClearAll } }]
    2

/-- A live flag without attributes, pattern 0, whose queue holds thread 1 (AND, mask
`0b001`, ClearAll) in an array of four slots. -/
def plainOne : World :=
  mkWorld false false false 0
    [{ thread := 1, bitPattern := 1, waitMode := { matchMode := .And, clearMode := .ClearAll } }] 4

/-- A live `SINGLE` flag with pattern 0 and an empty queue of four slots. -/
def singleEmpty : World := mkWorld true false false 0 [] 4

/-- A live flag without attributes, pattern 0, with an empty queue of four slots. -/
def sampleZero : World := mkWorld false false false 0 [] 4

/-- A live `FIFO` flag with pattern `0b110` whose queue holds thread 1 (OR, mask `0b010`,
ClearMatched) and thread 2 (AND, mask `0b100`, NoClear) in an array of four slots. -/
def fifoPair : World :=
  mkWorld false true false 6
    [{ thread := 1, bitPattern := 2, waitMode := { matchMode := .Or, clearMode := .ClearMatched } },
     { thread := 2, bitPattern := 4, waitMode := { matchMode := .And, clearMode := .NoClear } }]
    4

/-- A live `FIFO` flag with pattern `0b100` whose queue holds threads 1, 2 and 3, each
waiting in AND mode with ClearMatched for one of the bits 0, 1, 2. -/
def fifoThree : World :=
  mkWorld false true false 4
    [{ thread := 1, bitPattern := 1, waitMode := { matchMode := .And, clearMode := .ClearMatched } },
     { thread := 2, bitPattern := 2, waitMode := { matchMode := .And, clearMode := .ClearMatched } },
     { thread := 3, bitPattern := 4, waitMode := { matchMode := .And, clearMode := .ClearMatched } }]
    4

/-- The frame `testThread` produces when it selects the entry `thread` found at
`waitingThreads + idx` (lines 137-152). -/
def selectFrame (type : NotifyType) (f : NotifyFrame) (idx : Nat) (thread : WaitingThread) :
    NotifyFrame :=
  { world :=
      { evf := { f.world.evf with
          waitingThreadsCount := (f.world.evf.waitingThreadsCount + (2 ^ 32 - 1)) % 2 ^ 32
          waitingThreads :=
            memmove f.world.evf.waitingThreads idx (idx + 1) (f.count - (idx + 1)) }
        threads := setThread f.world.threads thread.thread
          { retval0 := thread.applyClear f.patValue
            retval1 := if type = NotifyType.Cancel then 1
              else (f.world.threads thread.thread).retval1 }
        notified := thread.thread :: f.world.notified }
    count := f.count - 1
    patValue := thread.applyClear f.patValue }

/-- The state is one that the typed fields of the C++ object can hold and that respects the
array bound: the counter fits `std::uint32_t` and does not exceed the array size. -/
def WellFormed (w : World) : Prop :=
  w.evf.waitingThreadsCount ≤ w.evf.waitingThreads.length ∧
    w.evf.waitingThreadsCount < 2 ^ 32

instance (w : World) : Decidable (WellFormed w) := by
  unfold WellFormed; infer_instance


/-- The invariant of the waiter counter: it stays within the array and within
`std::uint32_t`, and on a `SINGLE` flag it is at most 1. -/
def Inv (w : World) : Prop :=
  WellFormed w ∧ (w.evf.attrSingle = true → w.evf.waitingThreadsCount ≤ 1)

/-- Inside `notify` the local `count` and the counter of the object agree and stay within
the array. -/
def FrameSync (f : NotifyFrame) : Prop :=
  f.world.evf.waitingThreadsCount = f.count ∧
  f.count ≤ f.world.evf.waitingThreads.length ∧ f.count < 2 ^ 32

/-! ## The list-level reference of `notify`

This part follows the wording of the specification, not the code: it is what the
array-based `notify` is compared with. -/

/-- The running values of the reference scan: the number of waiters selected so far, the
running pattern, the waiters visited and not selected (in the order of the visit) and the
result slot of every thread. -/
structure RefScan where
  selected : Nat
  pattern : Nat
  kept : List WaitingThread
  results : Nat → Nat

/-- The reference scan: every waiter of the list is visited once, in list order.  A waiter
is selected when the kind is not `Set` or its predicate tests true on the running pattern;
a selected waiter sets the running pattern to `applyClear` of it and receives that value in
its result slot; a waiter that is not selected is kept. -/
def refVisit (type : NotifyType) : List WaitingThread → RefScan → RefScan
  | [], s => s
  | t :: ts, s =>
    if type ≠ NotifyType.Set ∨ t.test s.pattern = true then
      refVisit type ts
        { selected := s.selected + 1
          pattern := t.applyClear s.pattern
          kept := s.kept
          results := fun a => if a = t.thread then t.applyClear s.pattern else s.results a }
    else
      refVisit type ts { s with kept := s.kept ++ [t] }

/-- The reference of `notify`: the queued waiters are taken in reverse enqueue order if
`FIFO` is set and in ascending index order otherwise, the running pattern starts at
`pattern | bits` for `Set` and at `pattern` otherwise; the outcome is the number of selected
waiters, the committed pattern (the running pattern, or `bits` for `Cancel`), the waiters
that were not selected in their original relative order, and the result slots. -/
def notifyRef (w : World) (type : NotifyType) (bits : Nat) : RefScan :=
  let queue := w.evf.waitingThreads.take w.evf.waitingThreadsCount
  let s := refVisit type (if w.evf.attrThFifo then queue.reverse else queue)
    { selected := 0
      pattern := if type = NotifyType.Set then w.evf.value ||| bits else w.evf.value
      kept := []
      results := fun a => (w.threads a).retval0 }
  { selected := s.selected
    pattern := if type = NotifyType.Cancel then bits else s.pattern
    kept := if w.evf.attrThFifo then s.kept.reverse else s.kept
    results := s.results }

/-! ## Basic facts about the predicate algebra -/

/-- The predicate of a waiter does not depend on the thread it belongs to. -/
theorem test_thread_irrel (t u b : Nat) (m : WaitMode) (p : Nat) :
    (WaitingThread.mk t b m).test p = (WaitingThread.mk u b m).test p := rfl

/-- The clear operation of a waiter does not depend on the thread it belongs to. -/
theorem applyClear_thread_irrel (t u b : Nat) (m : WaitMode) (p : Nat) :
    (WaitingThread.mk t b m).applyClear p = (WaitingThread.mk u b m).applyClear p := rfl

/-- On 64-bit patterns `p &&& not64 b` is `p & ~b`: bit `i` of the result is set exactly when
it is set in `p` and not set in `b`. -/
theorem and_not64_testBit (p b i : Nat) (hp : p < 2 ^ 64) :
    (p &&& not64 b).testBit i = (p.testBit i && !b.testBit i) := by
  have hb : b % 2 ^ 64 < 2 ^ 64 := Nat.mod_lt _ (by norm_num)
  have h := Nat.testBit_two_pow_sub_succ hb i
  have e : not64 b = 2 ^ 64 - (b % 2 ^ 64 + 1) := by unfold not64; omega
  rw [Nat.testBit_and, e, h, Nat.testBit_mod_two_pow]
  by_cases hi : i < 64
  · simp [hi]
  · have hlt : p < 2 ^ i :=
      lt_of_lt_of_le hp (Nat.pow_le_pow_right (by norm_num) (by omega))
    have hz : p.testBit i = false := Nat.testBit_lt_two_pow hlt
    simp [hi, hz]

/-! ## `tryWait` and one pass of `wait` -/

/-- What `tryWait` does on a flag that is not deleted when the predicate tests true. -/
theorem tryWait_match (w : World) (thread : Nat) (m : WaitMode) (b t : Nat)
    (hdel : w.evf.isDeleted = false)
    (hmatch : (WaitingThread.mk t b m).test w.evf.value = true) :
    tryWait w thread m b =
      (ErrorCode.ok,
        { w with
          evf := { w.evf with value := (WaitingThread.mk t b m).applyClear w.evf.value }
          threads := setThread w.threads thread
            { w.threads thread with
              retval0 := (WaitingThread.mk t b m).applyClear w.evf.value } }) := by
  have h0 : (WaitingThread.mk 0 b m).test w.evf.value = true := hmatch
  simp only [tryWait, hdel, h0]
  rfl

/-- What `tryWait` does on a flag that is not deleted when the predicate tests false. -/
theorem tryWait_mismatch (w : World) (thread : Nat) (m : WaitMode) (b t : Nat)
    (hdel : w.evf.isDeleted = false)
    (hmiss : (WaitingThread.mk t b m).test w.evf.value = false) :
    tryWait w thread m b = (ErrorCode.BUSY, w) := by
  have h0 : (WaitingThread.mk 0 b m).test w.evf.value = false := hmiss
  simp [tryWait, hdel, h0]

/-- What `tryWait` does on a deleted flag. -/
theorem tryWait_deleted (w : World) (thread : Nat) (m : WaitMode) (b : Nat)
    (hdel : w.evf.isDeleted = true) :
    tryWait w thread m b = (ErrorCode.ACCES, w) := by
  simp [tryWait, hdel]

/-- The entry code of `wait` leaves the event flag alone. -/
theorem waitEnter_evf (w : World) (thread : Nat) : (waitEnter w thread).evf = w.evf := rfl

/-- After the entry code of `wait` the canceled slot of the caller is zero. -/
theorem waitEnter_retval1 (w : World) (thread : Nat) :
    ((waitEnter w thread).threads thread).retval1 = 0 := by
  simp [waitEnter, setThread]

/-- One pass of the loop of `wait` on a deleted flag. -/
theorem waitLoopBody_deleted (w : World) (thread : Nat) (m : WaitMode) (b : Nat)
    (timeout : Option Nat) (hdel : w.evf.isDeleted = true) :
    waitLoopBody w thread m b timeout = (WaitStep.ret ErrorCode.ACCES, w) := by
  simp [waitLoopBody, hdel]

/-- One pass of the loop of `wait` when the predicate tests true. -/
theorem waitLoopBody_match (w : World) (thread : Nat) (m : WaitMode) (b : Nat)
    (timeout : Option Nat) (hdel : w.evf.isDeleted = false)
    (hcan : (w.threads thread).retval1 = 0)
    (hmatch : (WaitingThread.mk thread b m).test w.evf.value = true) :
    waitLoopBody w thread m b timeout =
      (WaitStep.ret ErrorCode.ok,
        { w with
          evf := { w.evf with value := (WaitingThread.mk thread b m).applyClear w.evf.value }
          threads := setThread w.threads thread
            { w.threads thread with
              retval0 := (WaitingThread.mk thread b m).applyClear w.evf.value } }) := by
  simp [waitLoopBody, hdel, hcan, hmatch]

/-- One pass of the loop of `wait` when the predicate tests false and `*timeout` is 0. -/
theorem waitLoopBody_timedout (w : World) (thread : Nat) (m : WaitMode) (b : Nat)
    (hdel : w.evf.isDeleted = false) (hcan : (w.threads thread).retval1 = 0)
    (hmiss : (WaitingThread.mk thread b m).test w.evf.value = false) :
    waitLoopBody w thread m b (some 0) = (WaitStep.ret ErrorCode.TIMEDOUT, w) := by
  simp [waitLoopBody, hdel, hcan, hmiss]

/-- One pass of the loop of `wait` on a `SINGLE` flag that already has a counted waiter,
when the predicate tests false and the timeout is not exhausted. -/
theorem waitLoopBody_perm (w : World) (thread : Nat) (m : WaitMode) (b : Nat)
    (timeout : Option Nat) (hdel : w.evf.isDeleted = false)
    (hcan : (w.threads thread).retval1 = 0)
    (hmiss : (WaitingThread.mk thread b m).test w.evf.value = false)
    (htime : timeout ≠ some 0) (hsingle : w.evf.attrSingle = true)
    (hcount : w.evf.waitingThreadsCount ≠ 0) :
    waitLoopBody w thread m b timeout =
      (WaitStep.ret ErrorCode.PERM,
        { w with evf := { w.evf with waitingThreadsCount := 1 } }) := by
  simp [waitLoopBody, hdel, hcan, hmiss, htime, hsingle, hcount]


/-- The first pass of `wait` on a live flag when the predicate tests true. -/
theorem waitFirst_match (w : World) (thread : Nat) (m : WaitMode) (b : Nat)
    (timeout : Option Nat) (hdel : w.evf.isDeleted = false)
    (hmatch : (WaitingThread.mk thread b m).test w.evf.value = true) :
    waitFirst w thread m b timeout =
      (WaitStep.ret ErrorCode.ok,
        { waitEnter w thread with
          evf := { w.evf with value := (WaitingThread.mk thread b m).applyClear w.evf.value }
          threads := setThread (waitEnter w thread).threads thread
            { (waitEnter w thread).threads thread with
              retval0 := (WaitingThread.mk thread b m).applyClear w.evf.value } }) := by
  unfold waitFirst
  rw [waitLoopBody_match (waitEnter w thread) thread m b timeout hdel
    (waitEnter_retval1 w thread) hmatch]
  rfl

/-! ## C1 -/

/-- C1: on a flag that is not deleted, with pattern `p`, a mask `b` and a wait mode whose
predicate tests true on `p`, both `tryWait` and the first pass of `wait` return success and
leave the pattern 0 for ClearAll, `p & ~b` for ClearMatched and `p` for NoClear. -/
theorem tryWait_wait_clear_on_match (w : World) (thread : Nat) (m : WaitMode) (b : Nat)
    (timeout : Option Nat) (hdel : w.evf.isDeleted = false)
    (hmatch : (WaitingThread.mk thread b m).test w.evf.value = true) :
    (tryWait w thread m b).1 = ErrorCode.ok ∧
    (waitFirst w thread m b timeout).1 = WaitStep.ret ErrorCode.ok ∧
    (m.clearMode = ClearMode.ClearAll →
      (tryWait w thread m b).2.evf.value = 0 ∧
      (waitFirst w thread m b timeout).2.evf.value = 0) ∧
    (m.clearMode = ClearMode.ClearMatched →
      (tryWait w thread m b).2.evf.value = w.evf.value &&& not64 b ∧
      (waitFirst w thread m b timeout).2.evf.value = w.evf.value &&& not64 b) ∧
    (m.clearMode = ClearMode.NoClear →
      (tryWait w thread m b).2.evf.value = w.evf.value ∧
      (waitFirst w thread m b timeout).2.evf.value = w.evf.value) := by
  rw [tryWait_match w thread m b thread hdel hmatch,
    waitFirst_match w thread m b timeout hdel hmatch]
  refine ⟨rfl, rfl, ?_, ?_, ?_⟩ <;> intro hc <;> simp [WaitingThread.applyClear, hc]

/-- C1, instance: pattern `0b110`, mask `0b010`, AND with ClearMatched leaves `0b100`. -/
theorem tryWait_wait_clear_on_match_witness :
    sampleOpen.evf.isDeleted = false ∧
    (WaitingThread.mk 1 2 ⟨.And, .ClearMatched⟩).test sampleOpen.evf.value = true ∧
    (tryWait sampleOpen 1 ⟨.And, .ClearMatched⟩ 2).1 = ErrorCode.ok ∧
    (tryWait sampleOpen 1 ⟨.And, .ClearMatched⟩ 2).2.evf.value = sampleOpen.evf.value &&& not64 2 ∧
    sampleOpen.evf.value &&& not64 2 = 4 :=
  ⟨rfl, rfl,
    (tryWait_wait_clear_on_match sampleOpen 1 ⟨.And, .ClearMatched⟩ 2 none rfl rfl).1,
    ((tryWait_wait_clear_on_match sampleOpen 1 ⟨.And, .ClearMatched⟩ 2 none rfl rfl).2.2.2.1
      rfl).1,
    by decide⟩

/-! ## C2 -/

/-- C2: on a flag that is not deleted, `tryWait` returns success exactly when the predicate
matches (`(p & b) == b` in AND mode, `(p & b) != 0` in OR mode), and whenever it does not
return success it returns `BUSY`. -/
theorem tryWait_ok_iff_predicate (w : World) (thread : Nat) (m : WaitMode) (b : Nat)
    (hdel : w.evf.isDeleted = false) :
    (m.matchMode = MatchMode.And →
      ((tryWait w thread m b).1 = ErrorCode.ok ↔ w.evf.value &&& b = b)) ∧
    (m.matchMode = MatchMode.Or →
      ((tryWait w thread m b).1 = ErrorCode.ok ↔ w.evf.value &&& b ≠ 0)) ∧
    ((tryWait w thread m b).1 ≠ ErrorCode.ok → (tryWait w thread m b).1 = ErrorCode.BUSY) := by
  cases hmatch : (WaitingThread.mk thread b m).test w.evf.value
  · rw [tryWait_mismatch w thread m b thread hdel hmatch]
    refine ⟨?_, ?_, fun _ => rfl⟩ <;> intro hm <;>
      simp [WaitingThread.test, hm] at hmatch <;> simp [hmatch]
  · rw [tryWait_match w thread m b thread hdel hmatch]
    refine ⟨?_, ?_, fun h => absurd rfl h⟩ <;> intro hm <;>
      simp [WaitingThread.test, hm] at hmatch <;> simp [hmatch]

/-- C2, instance: pattern `0b110` and mask `0b011` do not match in AND mode, so `tryWait`
returns `BUSY`. -/
theorem tryWait_ok_iff_predicate_witness :
    sampleOpen.evf.isDeleted = false ∧
    (tryWait sampleOpen 1 ⟨.And, .NoClear⟩ 3).1 ≠ ErrorCode.ok ∧
    (tryWait sampleOpen 1 ⟨.And, .NoClear⟩ 3).1 = ErrorCode.BUSY :=
  ⟨rfl, by decide,
    (tryWait_ok_iff_predicate sampleOpen 1 ⟨.And, .NoClear⟩ 3 rfl).2.2 (by decide)⟩

/-! ## C3 -/

/-- C3: `tryWait` never changes the waiter array or `waitingThreadsCount`, whatever it
returns; and when it returns `BUSY` or `ACCES` (deleted) the whole state, the pattern and
the deleted flag included, is unchanged. -/
theorem tryWait_frame (w : World) (thread : Nat) (m : WaitMode) (b : Nat) :
    (tryWait w thread m b).2.evf.waitingThreads = w.evf.waitingThreads ∧
    (tryWait w thread m b).2.evf.waitingThreadsCount = w.evf.waitingThreadsCount ∧
    (tryWait w thread m b).2.notified = w.notified ∧
    ((tryWait w thread m b).1 = ErrorCode.BUSY ∨ (tryWait w thread m b).1 = ErrorCode.ACCES →
      (tryWait w thread m b).2.evf.value = w.evf.value ∧
      (tryWait w thread m b).2.evf.isDeleted = w.evf.isDeleted ∧
      (tryWait w thread m b).2 = w) := by
  cases hdel : w.evf.isDeleted
  · cases hmatch : (WaitingThread.mk thread b m).test w.evf.value
    · rw [tryWait_mismatch w thread m b thread hdel hmatch]
      simp [hdel]
    · rw [tryWait_match w thread m b thread hdel hmatch]
      simp
  · rw [tryWait_deleted w thread m b hdel]
    simp [hdel]

/-- C3, instance: a `tryWait` that returns `BUSY` leaves the state as it was. -/
theorem tryWait_frame_witness :
    (tryWait sampleOpen 1 ⟨.And, .NoClear⟩ 3).1 = ErrorCode.BUSY ∧
    (tryWait sampleOpen 1 ⟨.And, .NoClear⟩ 3).2 = sampleOpen :=
  ⟨by decide,
    ((tryWait_frame sampleOpen 1 ⟨.And, .NoClear⟩ 3).2.2.2 (Or.inl (by decide))).2.2⟩

/-! ## The scan of `notify` -/

/-- Inside the valid range `testThread` either rejects the entry and changes nothing, or
selects it and produces `selectFrame`. -/
theorem testThread_inRange (type : NotifyType) (f : NotifyFrame) (idx : Nat)
    (thread : WaitingThread) (hget : f.world.evf.waitingThreads[idx]? = some thread)
    (hidx : idx < f.count) (hcap : f.count ≤ f.world.evf.waitingThreads.length) :
    testThread type f idx =
      if type = NotifyType.Set ∧ thread.test f.patValue = false then Outcome.done (f, false)
      else Outcome.done (selectFrame type f idx thread, true) := by
  have h1 : ¬ (f.count < idx + 1 ∨ f.world.evf.waitingThreads.length < f.count) := by omega
  simp only [testThread, hget, h1, if_false]
  rfl

/-- Removing a valid entry keeps the size of the array. -/
theorem memmove_length (arr : List WaitingThread) (idx count : Nat) (hidx : idx < count)
    (hcap : count ≤ arr.length) :
    (memmove arr idx (idx + 1) (count - (idx + 1))).length = arr.length := by
  simp only [memmove, List.length_append, List.length_take, List.length_drop]
  omega

/-- `testThread` never touches the deleted flag. -/
theorem testThread_isDeleted (type : NotifyType) (f : NotifyFrame) (idx : Nat)
    (r : NotifyFrame × Bool) (h : testThread type f idx = Outcome.done r) :
    r.1.world.evf.isDeleted = f.world.evf.isDeleted := by
  unfold testThread at h
  split at h
  · cases h
  · split_ifs at h <;> cases h <;> rfl

/-- The `FIFO` loop never touches the deleted flag. -/
theorem notifyFifoLoop_isDeleted (type : NotifyType) :
    ∀ (fuel : Nat) (f : NotifyFrame) (i result : Nat) (r : NotifyFrame × Nat),
      notifyFifoLoop type fuel f i result = Outcome.done r →
      r.1.world.evf.isDeleted = f.world.evf.isDeleted := by
  intro fuel
  induction fuel with
  | zero => intro f i result r h; cases h
  | succ fuel ih =>
    intro f i result r h
    rw [notifyFifoLoop] at h
    split_ifs at h with hi
    · cases ht : testThread type f (i - 1) with
      | done t =>
        rw [ht] at h
        have hd := testThread_isDeleted type f (i - 1) t ht
        by_cases hsel : t.2 = true
        · simp only [hsel, if_true] at h
          rw [ih _ _ _ _ h, hd]
        · simp only [hsel, if_false] at h
          rw [ih _ _ _ _ h, hd]
      | fault => rw [ht] at h; cases h
      | outOfFuel => rw [ht] at h; cases h
    · cases h; rfl

/-- The loop for flags without `FIFO` never touches the deleted flag. -/
theorem notifyLoop_isDeleted (type : NotifyType) :
    ∀ (fuel : Nat) (f : NotifyFrame) (i result : Nat) (r : NotifyFrame × Nat),
      notifyLoop type fuel f i result = Outcome.done r →
      r.1.world.evf.isDeleted = f.world.evf.isDeleted := by
  intro fuel
  induction fuel with
  | zero => intro f i result r h; cases h
  | succ fuel ih =>
    intro f i result r h
    rw [notifyLoop] at h
    split_ifs at h with hi
    · cases ht : testThread type f i with
      | done t =>
        rw [ht] at h
        have hd := testThread_isDeleted type f i t ht
        by_cases hsel : t.2 = true
        · simp only [hsel, if_true] at h
          rw [ih _ _ _ _ h, hd]
        · simp only [hsel, if_false] at h
          rw [ih _ _ _ _ h, hd]
      | fault => rw [ht] at h; cases h
      | outOfFuel => rw [ht] at h; cases h
    · cases h; rfl

/-- Whenever `notify` returns, the deleted flag is the old one, or set if the kind is
`Destroy`, and for `Cancel` the pattern is the `bits` argument. -/
theorem notify_done_inv (fuel : Nat) (w : World) (type : NotifyType) (bits : Nat)
    (r : World × Nat) (h : notify fuel w type bits = Outcome.done r) :
    r.1.evf.isDeleted = (w.evf.isDeleted || decide (type = NotifyType.Destroy)) ∧
    (type = NotifyType.Cancel → r.1.evf.value = bits) := by
  unfold notify at h
  cases hs : (if w.evf.attrThFifo then
      notifyFifoLoop type fuel (notifyBegin w type bits) (notifyBegin w type bits).count 0
      else notifyLoop type fuel (notifyBegin w type bits) 0 0) with
  | done s =>
    simp only [hs] at h
    cases h
    have hd : s.1.world.evf.isDeleted = (notifyBegin w type bits).world.evf.isDeleted := by
      split_ifs at hs
      · exact notifyFifoLoop_isDeleted type _ _ _ _ _ hs
      · exact notifyLoop_isDeleted type _ _ _ _ _ hs
    refine ⟨?_, fun hc => by simp [notifyEnd, hc]⟩
    show s.1.world.evf.isDeleted = _
    rw [hd]
    by_cases hty : type = NotifyType.Destroy <;> simp [notifyBegin, hty]
  | fault => simp only [hs] at h; cases h
  | outOfFuel => simp only [hs] at h; cases h

/-- The loop for flags without `FIFO` returns once the fuel exceeds the number of entries
still to visit.  The returned count plus the remaining entries is the count on entry plus
the entries on entry, every selected entry is signalled once, the counter of the object
follows the local count, and for `Cancel` and `Destroy` nothing from `i` on remains. -/
theorem notifyLoop_returns (type : NotifyType) :
    ∀ (fuel : Nat) (f : NotifyFrame) (i result : Nat),
      f.count ≤ f.world.evf.waitingThreads.length → i ≤ f.count → f.count - i < fuel →
      ∃ r, notifyLoop type fuel f i result = Outcome.done r ∧
        r.2 + r.1.count = result + f.count ∧
        r.1.world.notified.length + result = f.world.notified.length + r.2 ∧
        (f.world.evf.waitingThreadsCount = f.count → f.count < 2 ^ 32 →
          r.1.world.evf.waitingThreadsCount = r.1.count) ∧
        (type ≠ NotifyType.Set → r.1.count = i) := by
  intro fuel
  induction fuel with
  | zero => intro f i result _ _ h; omega
  | succ fuel ih =>
    intro f i result hcap hi hfuel
    by_cases hlt : i < f.count
    · have hlen : i < f.world.evf.waitingThreads.length := by omega
      have hget : f.world.evf.waitingThreads[i]? = some (f.world.evf.waitingThreads[i]) :=
        List.getElem?_eq_getElem hlen
      rw [notifyLoop, if_pos hlt, testThread_inRange type f i _ hget hlt hcap]
      by_cases hsel : type = NotifyType.Set ∧
          (f.world.evf.waitingThreads[i]).test f.patValue = false
      · rw [if_pos hsel]
        obtain ⟨r, hr, h1, h3, h4, _⟩ := ih f (i + 1) result hcap (by omega) (by omega)
        exact ⟨r, by simpa using hr, h1, h3, h4, fun hne => absurd hsel.1 hne⟩
      · rw [if_neg hsel]
        have hcap2 : (selectFrame type f i (f.world.evf.waitingThreads[i])).count ≤
            (selectFrame type f i
              (f.world.evf.waitingThreads[i])).world.evf.waitingThreads.length := by
          show f.count - 1 ≤ (memmove _ _ _ _).length
          rw [memmove_length _ _ _ hlt hcap]; omega
        obtain ⟨r, hr, h1, h3, h4, h5⟩ :=
          ih (selectFrame type f i (f.world.evf.waitingThreads[i])) i (result + 1) hcap2
            (by show i ≤ f.count - 1; omega) (by show f.count - 1 - i < fuel; omega)
        refine ⟨r, by simpa using hr, ?_, ?_, ?_, h5⟩
        · have hc : (selectFrame type f i (f.world.evf.waitingThreads[i])).count =
              f.count - 1 := rfl
          omega
        · have hn : (selectFrame type f i
              (f.world.evf.waitingThreads[i])).world.notified.length =
              f.world.notified.length + 1 := rfl
          omega
        · intro hs hb
          apply h4
          · show (f.world.evf.waitingThreadsCount + (2 ^ 32 - 1)) % 2 ^ 32 = f.count - 1
            rw [hs]; omega
          · show f.count - 1 < 2 ^ 32
            omega
    · have hic : i = f.count := by omega
      exact ⟨(f, result), by rw [notifyLoop, if_neg hlt], rfl, rfl, fun h _ => h,
        fun _ => hic.symm⟩

/-- On a well-formed flag without `FIFO`, `notify` returns as soon as the fuel exceeds the
number of queued waiters.  Its result is the number of entries removed and the number of
`notify_one` calls made; `Cancel` and `Destroy` remove every entry. -/
theorem notify_returns_plain (fuel : Nat) (w : World) (type : NotifyType) (bits : Nat)
    (hfifo : w.evf.attrThFifo = false) (hwf : WellFormed w)
    (hfuel : w.evf.waitingThreadsCount < fuel) :
    ∃ r, notify fuel w type bits = Outcome.done r ∧
      r.2 + r.1.evf.waitingThreadsCount = w.evf.waitingThreadsCount ∧
      r.1.notified.length = w.notified.length + r.2 ∧
      (type ≠ NotifyType.Set →
        r.1.evf.waitingThreadsCount = 0 ∧ r.2 = w.evf.waitingThreadsCount) := by
  have hlen : (notifyBegin w type bits).world.evf.waitingThreads.length =
      w.evf.waitingThreads.length := by
    unfold notifyBegin; split_ifs <;> rfl
  have hcnt : (notifyBegin w type bits).world.evf.waitingThreadsCount =
      w.evf.waitingThreadsCount := by
    unfold notifyBegin; split_ifs <;> rfl
  have hnot : (notifyBegin w type bits).world.notified = w.notified := by
    unfold notifyBegin; split_ifs <;> rfl
  obtain ⟨r, hr, h1, h3, h4, h5⟩ :=
    notifyLoop_returns type fuel (notifyBegin w type bits) 0 0
      (by rw [hlen]; exact hwf.1) (Nat.zero_le _)
      (by show w.evf.waitingThreadsCount - 0 < fuel; omega)
  have hsync := h4 hcnt hwf.2
  have hc0 : (notifyBegin w type bits).count = w.evf.waitingThreadsCount := rfl
  refine ⟨notifyEnd type bits r, ?_, ?_, ?_, ?_⟩
  · simp [notify, hfifo, hr]
  · show r.2 + r.1.world.evf.waitingThreadsCount = _
    omega
  · show r.1.world.notified.length = w.notified.length + r.2
    rw [hnot] at h3
    omega
  · intro hne
    have := h5 hne
    refine ⟨?_, ?_⟩
    · show r.1.world.evf.waitingThreadsCount = 0
      omega
    · show r.2 = w.evf.waitingThreadsCount
      omega

/-- With an empty queue `notify` returns 0 after one unit of fuel, `FIFO` or not. -/
theorem notify_returns_empty (fuel : Nat) (w : World) (type : NotifyType) (bits : Nat)
    (hcount : w.evf.waitingThreadsCount = 0) :
    ∃ r, notify (fuel + 1) w type bits = Outcome.done r ∧ r.2 = 0 := by
  have hc0 : (notifyBegin w type bits).count = 0 := hcount
  refine ⟨notifyEnd type bits (notifyBegin w type bits, 0), ?_, rfl⟩
  cases hf : w.evf.attrThFifo <;> simp [notify, hf, notifyFifoLoop, notifyLoop, hc0]

/-- The defect of the `FIFO` loop in general: for `Cancel` and `Destroy`, started at the
tail of a non-empty valid range, the loop never returns.  Its first pass selects the entry
at index `count - 1` and lowers `count`, the loop variable stays where it was, and the second
pass calls `testThread` on the same index, now outside the valid range. -/
theorem notifyFifoLoop_forced_no_return (type : NotifyType) (hty : type ≠ NotifyType.Set)
    (fuel : Nat) (f : NotifyFrame) (result : Nat) (hpos : 0 < f.count)
    (hcap : f.count ≤ f.world.evf.waitingThreads.length) :
    (notifyFifoLoop type fuel f f.count result).isDone = false := by
  have hlen : f.count - 1 < f.world.evf.waitingThreads.length := by omega
  have hget : f.world.evf.waitingThreads[f.count - 1]? =
      some (f.world.evf.waitingThreads[f.count - 1]) := List.getElem?_eq_getElem hlen
  have hsel : ¬ (type = NotifyType.Set ∧
      (f.world.evf.waitingThreads[f.count - 1]).test f.patValue = false) :=
    fun h => hty h.1
  match fuel with
  | 0 => rfl
  | 1 =>
    rw [notifyFifoLoop, if_pos hpos,
      testThread_inRange type f (f.count - 1) _ hget (by omega) hcap, if_neg hsel]
    rfl
  | n + 2 =>
    rw [notifyFifoLoop, if_pos hpos,
      testThread_inRange type f (f.count - 1) _ hget (by omega) hcap, if_neg hsel]
    simp only [if_true]
    rw [notifyFifoLoop, if_pos hpos]
    have hfault : testThread type
        (selectFrame type f (f.count - 1) (f.world.evf.waitingThreads[f.count - 1]))
        (f.count - 1) = Outcome.fault := by
      unfold testThread
      split
      · rfl
      · have hc : (selectFrame type f (f.count - 1)
            (f.world.evf.waitingThreads[f.count - 1])).count = f.count - 1 := rfl
        rw [if_neg (fun h => hty h.1), hc, if_pos (Or.inl (by omega))]
    rw [hfault]
    rfl

/-- On a `FIFO` flag with at least one counted waiter inside the array, `notify(Cancel, _)`
and `notify(Destroy, _)` do not return, whatever the fuel. -/
theorem notify_fifo_forced_no_return (type : NotifyType) (hty : type ≠ NotifyType.Set)
    (fuel : Nat) (w : World) (bits : Nat) (hfifo : w.evf.attrThFifo = true)
    (hpos : 0 < w.evf.waitingThreadsCount)
    (hcap : w.evf.waitingThreadsCount ≤ w.evf.waitingThreads.length) :
    (notify fuel w type bits).isDone = false := by
  have hlen : (notifyBegin w type bits).world.evf.waitingThreads.length =
      w.evf.waitingThreads.length := by
    unfold notifyBegin; split_ifs <;> rfl
  have h := notifyFifoLoop_forced_no_return type hty fuel (notifyBegin w type bits) 0
    hpos (by rw [hlen]; exact hcap)
  unfold notify
  simp only [hfifo, if_true]
  cases hs : notifyFifoLoop type fuel (notifyBegin w type bits)
      (notifyBegin w type bits).count 0 with
  | done r => rw [hs] at h; cases h
  | fault => rfl
  | outOfFuel => rfl

/-! ## C4 -/

/-- C4, as stated, fails: on pattern `0b001` with mask `0b001`, AND and ClearAll, the
predicate tests true on 1, `tryWait` and the first pass of `wait` succeed, and the value
they leave in `retval[0]` of the caller is 0, not the matched pattern 1. -/
theorem result_slot_not_matched_pattern :
    sampleOne.evf.isDeleted = false ∧
    sampleOne.evf.value = 1 ∧
    (WaitingThread.mk 5 1 ⟨.And, .ClearAll⟩).test sampleOne.evf.value = true ∧
    (tryWait sampleOne 5 ⟨.And, .ClearAll⟩ 1).1 = ErrorCode.ok ∧
    ((tryWait sampleOne 5 ⟨.And, .ClearAll⟩ 1).2.threads 5).retval0 = 0 ∧
    ((tryWait sampleOne 5 ⟨.And, .ClearAll⟩ 1).2.threads 5).retval0 ≠ sampleOne.evf.value ∧
    (waitFirst sampleOne 5 ⟨.And, .ClearAll⟩ 1 none).1 = WaitStep.ret ErrorCode.ok ∧
    ((waitFirst sampleOne 5 ⟨.And, .ClearAll⟩ 1 none).2.threads 5).retval0 = 0 ∧
    ((waitFirst sampleOne 5 ⟨.And, .ClearAll⟩ 1 none).2.threads 5).retval0 ≠
      sampleOne.evf.value := by
  decide

/-- C4, amended: whenever `tryWait` or the first pass of `wait` succeeds on an immediate
match, the value written into `retval[0]` of the caller is the cleared pattern
`applyClear p`, the same value that is committed as the new pattern of the flag; it is the
matched pattern `p` itself when the clear mode is NoClear. -/
theorem result_slot_is_cleared_pattern (w : World) (thread : Nat) (m : WaitMode) (b : Nat)
    (timeout : Option Nat) (hdel : w.evf.isDeleted = false)
    (hmatch : (WaitingThread.mk thread b m).test w.evf.value = true) :
    (tryWait w thread m b).1 = ErrorCode.ok ∧
    ((tryWait w thread m b).2.threads thread).retval0 =
      (WaitingThread.mk thread b m).applyClear w.evf.value ∧
    ((tryWait w thread m b).2.threads thread).retval0 = (tryWait w thread m b).2.evf.value ∧
    (waitFirst w thread m b timeout).1 = WaitStep.ret ErrorCode.ok ∧
    ((waitFirst w thread m b timeout).2.threads thread).retval0 =
      (WaitingThread.mk thread b m).applyClear w.evf.value ∧
    ((waitFirst w thread m b timeout).2.threads thread).retval0 =
      (waitFirst w thread m b timeout).2.evf.value ∧
    (m.clearMode = ClearMode.NoClear →
      ((tryWait w thread m b).2.threads thread).retval0 = w.evf.value ∧
      ((waitFirst w thread m b timeout).2.threads thread).retval0 = w.evf.value) := by
  rw [tryWait_match w thread m b thread hdel hmatch,
    waitFirst_match w thread m b timeout hdel hmatch]
  refine ⟨rfl, ?_, ?_, rfl, ?_, ?_, ?_⟩
  · simp [setThread]
  · simp [setThread]
  · simp [setThread]
  · simp [setThread]
  · intro hc
    simp [setThread, WaitingThread.applyClear, hc]

/-- C4, amended, instance: pattern `0b110`, mask `0b010`, AND with ClearMatched; the result
slot and the new pattern are both `0b100`. -/
theorem result_slot_is_cleared_pattern_witness :
    sampleOpen.evf.isDeleted = false ∧
    (WaitingThread.mk 5 2 ⟨.And, .ClearMatched⟩).test sampleOpen.evf.value = true ∧
    ((tryWait sampleOpen 5 ⟨.And, .ClearMatched⟩ 2).2.threads 5).retval0 =
      (WaitingThread.mk 5 2 ⟨.And, .ClearMatched⟩).applyClear sampleOpen.evf.value ∧
    (WaitingThread.mk 5 2 ⟨.And, .ClearMatched⟩).applyClear sampleOpen.evf.value = 4 :=
  ⟨rfl, rfl,
    (result_slot_is_cleared_pattern sampleOpen 5 ⟨.And, .ClearMatched⟩ 2 none rfl rfl).2.1,
    by decide⟩

/-! ## `notify(Cancel, bits)` where it returns -/

/-- Whenever `notify(Cancel, bits)` returns, the pattern of the flag is exactly `bits`; and
it does return, with that pattern, on every well-formed flag that is not `FIFO` or has no
queued waiter, once the fuel exceeds the number of queued waiters.  On a `FIFO` flag with a
queued waiter the call does not return, so this says nothing about such a flag. -/
theorem notify_cancel_commits_bits (fuel : Nat) (w : World) (bits : Nat) :
    (∀ r, notify fuel w NotifyType.Cancel bits = Outcome.done r → r.1.evf.value = bits) ∧
    (w.evf.attrThFifo = false ∨ w.evf.waitingThreadsCount = 0 → WellFormed w →
      w.evf.waitingThreadsCount < fuel →
      ∃ r, notify fuel w NotifyType.Cancel bits = Outcome.done r ∧ r.1.evf.value = bits) := by
  refine ⟨fun r h => (notify_done_inv fuel w _ bits r h).2 rfl, ?_⟩
  intro hq hwf hfuel
  rcases hq with hfifo | hempty
  · obtain ⟨r, hr, _⟩ := notify_returns_plain fuel w NotifyType.Cancel bits hfifo hwf hfuel
    exact ⟨r, hr, (notify_done_inv fuel w _ bits r hr).2 rfl⟩
  · obtain ⟨n, rfl⟩ : ∃ n, fuel = n + 1 := ⟨fuel - 1, by omega⟩
    obtain ⟨r, hr, _⟩ := notify_returns_empty n w NotifyType.Cancel bits hempty
    exact ⟨r, hr, (notify_done_inv _ w _ bits r hr).2 rfl⟩

/-- Instance: on the two-waiter flag without `FIFO` (pattern `0b100`, one ClearAll and
one ClearMatched waiter) `notify(Cancel, 9)` returns and leaves the pattern 9. -/
theorem notify_cancel_commits_bits_witness :
    (plainTwo.evf.attrThFifo = false ∨ plainTwo.evf.waitingThreadsCount = 0) ∧
    WellFormed plainTwo ∧ plainTwo.evf.waitingThreadsCount < 3 ∧
    ∃ r, notify 3 plainTwo NotifyType.Cancel 9 = Outcome.done r ∧ r.1.evf.value = 9 :=
  ⟨Or.inl rfl, by decide, by decide,
    (notify_cancel_commits_bits 3 plainTwo 9).2 (Or.inl rfl) (by decide) (by decide)⟩

/-! ## C5 -/

/-- C5 fails on the code for `FIFO` flags with a queued waiter: on `fifoPair` (pattern
`0b110`, two queued waiters) `notify(Cancel, 9)` does not return, whatever the fuel, so the
store of `bits` at line 178 is never reached.  The first call of `testThread` selects the
entry at index 1; the frame it leaves still carries the old pattern `0b110` in the flag,
`count` is 1 and the loop variable is still 2, so the second call is on index 1 again, where
the `memmove` length `count - 2` is negative. -/
theorem notify_cancel_fifo_never_commits :
    WellFormed fifoPair ∧ fifoPair.evf.attrThFifo = true ∧
    fifoPair.evf.waitingThreadsCount = 2 ∧ fifoPair.evf.value = 6 ∧
    (∀ fuel : Nat, (notify fuel fifoPair NotifyType.Cancel 9).isDone = false) ∧
    (∀ fuel : Nat, ∀ r, notify fuel fifoPair NotifyType.Cancel 9 ≠ Outcome.done r) ∧
    (∃ f1, testThread NotifyType.Cancel (notifyBegin fifoPair NotifyType.Cancel 9) 1 =
        Outcome.done (f1, true) ∧
      f1.count = 1 ∧ f1.world.evf.value = 6 ∧
      testThread NotifyType.Cancel f1 (2 - 1) = Outcome.fault) := by
  have hno : ∀ fuel : Nat, (notify fuel fifoPair NotifyType.Cancel 9).isDone = false := by
    intro fuel
    match fuel with
    | 0 => rfl
    | 1 => rfl
    | n + 2 => rfl
  refine ⟨by decide, rfl, rfl, rfl, hno, ?_, ?_⟩
  · intro fuel r h
    have h2 := hno fuel
    rw [h] at h2
    cases h2
  · exact ⟨selectFrame NotifyType.Cancel (notifyBegin fifoPair NotifyType.Cancel 9) 1
      { thread := 2, bitPattern := 4,
        waitMode := { matchMode := .And, clearMode := .NoClear } }, rfl, rfl, rfl, rfl⟩

/-! ## C6 -/

/-- C6 fails on the code: on the `FIFO` flag `fifoTwo` with two queued waiters neither
`notify(Destroy, 0)` nor `notify(Cancel, 0)` returns, whatever the fuel.  The first call of
`testThread` selects the entry at index 1 and lowers `count` to 1; the loop variable `i`
stays 2, so the second call is again on index 1, where the `memmove` length `count - 2` is
negative. -/
theorem notify_fifo_cancel_destroy_no_return :
    (∀ fuel : Nat, (notify fuel fifoTwo NotifyType.Destroy 0).isDone = false) ∧
    (∀ fuel : Nat, (notify fuel fifoTwo NotifyType.Cancel 0).isDone = false) ∧
    (∃ f1, testThread NotifyType.Cancel (notifyBegin fifoTwo NotifyType.Cancel 0) 1 =
        Outcome.done (f1, true) ∧ f1.count = 1 ∧
      (testThread NotifyType.Cancel f1 1).isDone = false) := by
  refine ⟨?_, ?_, ?_⟩
  · intro fuel
    match fuel with
    | 0 => rfl
    | 1 => rfl
    | n + 2 => rfl
  · intro fuel
    match fuel with
    | 0 => rfl
    | 1 => rfl
    | n + 2 => rfl
  · exact ⟨selectFrame NotifyType.Cancel (notifyBegin fifoTwo NotifyType.Cancel 0) 1
      { thread := 2, bitPattern := 2,
        waitMode := { matchMode := .And, clearMode := .ClearMatched } }, rfl, rfl, rfl⟩

/-! ## C7 -/

/-- C7: `notify(Destroy, _)` sets the deleted flag (it is set before the scan starts and
is still set whenever the call returns, and the call returns on every well-formed flag that
is not `FIFO` or has an empty queue); once the flag is set, no
`notify` of any kind, no `tryWait` and no part of `wait` resets it; and on a deleted flag
`tryWait`, the first pass of `wait` and every later pass return `ACCES` (the code for a
deleted flag) at once, whatever the pattern and the predicate, leaving the event flag
(pattern, waiter array, counter) as it was. -/
theorem deleted_is_permanent (fuel : Nat) (w : World) (type : NotifyType) (bits : Nat)
    (thread : Nat) (m : WaitMode) (b : Nat) (timeout : Option Nat) :
    (notifyBegin w NotifyType.Destroy bits).world.evf.isDeleted = true ∧
    (∀ r, notify fuel w NotifyType.Destroy bits = Outcome.done r →
      r.1.evf.isDeleted = true) ∧
    (w.evf.attrThFifo = false ∨ w.evf.waitingThreadsCount = 0 → WellFormed w →
      w.evf.waitingThreadsCount < fuel →
      ∃ r, notify fuel w NotifyType.Destroy bits = Outcome.done r ∧
        r.1.evf.isDeleted = true) ∧
    (w.evf.isDeleted = true →
      (∀ r, notify fuel w type bits = Outcome.done r → r.1.evf.isDeleted = true) ∧
      tryWait w thread m b = (ErrorCode.ACCES, w) ∧
      waitLoopBody w thread m b timeout = (WaitStep.ret ErrorCode.ACCES, w) ∧
      waitFirst w thread m b timeout = (WaitStep.ret ErrorCode.ACCES, waitEnter w thread) ∧
      (waitEnter w thread).evf = w.evf) := by
  refine ⟨rfl, fun r h => ?_, ?_, ?_⟩
  · rw [(notify_done_inv fuel w _ bits r h).1]; simp
  · intro hq hwf hfuel
    have hex : ∃ r, notify fuel w NotifyType.Destroy bits = Outcome.done r := by
      rcases hq with hfifo | hempty
      · obtain ⟨r, hr, _⟩ :=
          notify_returns_plain fuel w NotifyType.Destroy bits hfifo hwf hfuel
        exact ⟨r, hr⟩
      · obtain ⟨n, rfl⟩ : ∃ n, fuel = n + 1 := ⟨fuel - 1, by omega⟩
        obtain ⟨r, hr, _⟩ := notify_returns_empty n w NotifyType.Destroy bits hempty
        exact ⟨r, hr⟩
    obtain ⟨r, hr⟩ := hex
    refine ⟨r, hr, ?_⟩
    rw [(notify_done_inv fuel w _ bits r hr).1]; simp
  · intro hdel
    refine ⟨fun r h => ?_, tryWait_deleted w thread m b hdel,
      waitLoopBody_deleted w thread m b timeout hdel, ?_, rfl⟩
    · rw [(notify_done_inv fuel w type bits r h).1, hdel]; simp
    · exact waitLoopBody_deleted (waitEnter w thread) thread m b timeout hdel

/-- C7, instance: on the deleted flag with pattern `0b110` a `tryWait` for bit 1 in OR mode,
whose predicate would match, returns `ACCES` and changes nothing. -/
theorem deleted_is_permanent_witness :
    sampleDeleted.evf.isDeleted = true ∧
    (WaitingThread.mk 3 2 ⟨.Or, .NoClear⟩).test sampleDeleted.evf.value = true ∧
    tryWait sampleDeleted 3 ⟨.Or, .NoClear⟩ 2 = (ErrorCode.ACCES, sampleDeleted) ∧
    waitFirst sampleDeleted 3 ⟨.Or, .NoClear⟩ 2 none =
      (WaitStep.ret ErrorCode.ACCES, waitEnter sampleDeleted 3) :=
  ⟨rfl, rfl,
    ((deleted_is_permanent 1 sampleDeleted NotifyType.Set 0 3 ⟨.Or, .NoClear⟩ 2 none).2.2.2
      rfl).2.1,
    ((deleted_is_permanent 1 sampleDeleted NotifyType.Set 0 3 ⟨.Or, .NoClear⟩ 2 none).2.2.2
      rfl).2.2.2.1⟩

/-! ## C8 -/

/-- C8: on a live `SINGLE` flag with exactly one counted waiter, a `wait` call whose
predicate does not match the pattern and whose timeout, if any, is not zero returns `PERM`
(PermissionDenied) on its first pass; the event flag, with its counter 1 and its waiter
array, is exactly as before. -/
theorem wait_single_second_waiter (w : World) (thread : Nat) (m : WaitMode) (b : Nat)
    (timeout : Option Nat) (hsingle : w.evf.attrSingle = true)
    (hdel : w.evf.isDeleted = false) (hcount : w.evf.waitingThreadsCount = 1)
    (hmiss : (WaitingThread.mk thread b m).test w.evf.value = false)
    (htime : timeout ≠ some 0) :
    (waitFirst w thread m b timeout).1 = WaitStep.ret ErrorCode.PERM ∧
    (waitFirst w thread m b timeout).2.evf.waitingThreadsCount = 1 ∧
    (waitFirst w thread m b timeout).2.evf.waitingThreads = w.evf.waitingThreads ∧
    (waitFirst w thread m b timeout).2.evf = w.evf ∧
    (waitFirst w thread m b timeout).2.notified = w.notified := by
  have h := waitLoopBody_perm (waitEnter w thread) thread m b timeout hdel
    (waitEnter_retval1 w thread) hmiss htime hsingle (by
      show w.evf.waitingThreadsCount ≠ 0
      omega)
  unfold waitFirst
  rw [h]
  refine ⟨rfl, rfl, rfl, ?_, rfl⟩
  show { w.evf with waitingThreadsCount := 1 } = w.evf
  rw [← hcount]

/-- C8, instance: thread 8 waits for bit 1 on the `SINGLE` flag on which thread 7 is
queued. -/
theorem wait_single_second_waiter_witness :
    sampleSingle.evf.attrSingle = true ∧ sampleSingle.evf.isDeleted = false ∧
    sampleSingle.evf.waitingThreadsCount = 1 ∧
    (WaitingThread.mk 8 2 ⟨.And, .NoClear⟩).test sampleSingle.evf.value = false ∧
    (waitFirst sampleSingle 8 ⟨.And, .NoClear⟩ 2 (some 100)).1 = WaitStep.ret ErrorCode.PERM ∧
    (waitFirst sampleSingle 8 ⟨.And, .NoClear⟩ 2 (some 100)).2.evf = sampleSingle.evf :=
  ⟨rfl, rfl, rfl, rfl,
    (wait_single_second_waiter sampleSingle 8 ⟨.And, .NoClear⟩ 2 (some 100) rfl rfl rfl rfl
      (by decide)).1,
    (wait_single_second_waiter sampleSingle 8 ⟨.And, .NoClear⟩ 2 (some 100) rfl rfl rfl rfl
      (by decide)).2.2.2.1⟩

/-! ## C9 -/

/-- C9: on a flag that is not deleted, a `wait` call with `*timeout == 0` whose predicate
does not match the pattern returns `TIMEDOUT` on its first pass, and the event flag (waiter
array, counter, pattern) is exactly as before. -/
theorem wait_zero_timeout (w : World) (thread : Nat) (m : WaitMode) (b : Nat)
    (hdel : w.evf.isDeleted = false)
    (hmiss : (WaitingThread.mk thread b m).test w.evf.value = false) :
    waitFirst w thread m b (some 0) =
      (WaitStep.ret ErrorCode.TIMEDOUT, waitEnter w thread) ∧
    (waitFirst w thread m b (some 0)).2.evf.waitingThreads = w.evf.waitingThreads ∧
    (waitFirst w thread m b (some 0)).2.evf.waitingThreadsCount = w.evf.waitingThreadsCount ∧
    (waitFirst w thread m b (some 0)).2.evf.value = w.evf.value ∧
    (waitFirst w thread m b (some 0)).2.evf = w.evf := by
  have h := waitLoopBody_timedout (waitEnter w thread) thread m b hdel
    (waitEnter_retval1 w thread) hmiss
  unfold waitFirst
  rw [h]
  exact ⟨rfl, rfl, rfl, rfl, rfl⟩

/-- C9, instance: pattern `0b110`, AND on mask `0b001`, timeout 0. -/
theorem wait_zero_timeout_witness :
    sampleOpen.evf.isDeleted = false ∧
    (WaitingThread.mk 3 1 ⟨.And, .ClearAll⟩).test sampleOpen.evf.value = false ∧
    waitFirst sampleOpen 3 ⟨.And, .ClearAll⟩ 1 (some 0) =
      (WaitStep.ret ErrorCode.TIMEDOUT, waitEnter sampleOpen 3) :=
  ⟨rfl, rfl, (wait_zero_timeout sampleOpen 3 ⟨.And, .ClearAll⟩ 1 rfl rfl).1⟩

/-! ## C10 -/

/-- C10 fails on the code: on a `FIFO` flag with one queued waiter `notify` does not
return, whatever the fuel: neither `notify(Cancel, 5)` on `fifoOne`, nor `notify(Set, 1)`
on `fifoNoClear`, where the waiter still matches after its own NoClear selection.  In both
runs the entry at index 0 is selected a second time after `count` has dropped to 0. -/
theorem notify_fifo_no_return :
    (∀ fuel : Nat, (notify fuel fifoOne NotifyType.Cancel 5).isDone = false) ∧
    (∀ fuel : Nat, (notify fuel fifoNoClear NotifyType.Set 1).isDone = false) ∧
    WellFormed fifoOne ∧ WellFormed fifoNoClear := by
  refine ⟨?_, ?_, by decide, by decide⟩
  · intro fuel
    match fuel with
    | 0 => rfl
    | 1 => rfl
    | n + 2 => rfl
  · intro fuel
    match fuel with
    | 0 => rfl
    | 1 => rfl
    | n + 2 => rfl

/-! ## C11 -/

/-- C11: on the `FIFO` flag with pattern 0 whose queue holds A (thread 1, AND `0b011`,
ClearMatched) then B (thread 2, AND `0b100`, ClearMatched), `notify(Set, 0b111)` returns 2
once it has fuel for its five passes, signals B before A (the log lists the latest call
first), leaves `0b011` in the result slot of B and 0 in that of A, and leaves the pattern 0
and the counter of valid entries 0. -/
theorem notify_scenario_fifo_chain (n : Nat) :
    ∃ r, notify (n + 5) scenarioAB NotifyType.Set 7 = Outcome.done r ∧
      r.2 = 2 ∧ r.1.notified = [1, 2] ∧
      (r.1.threads 2).retval0 = 3 ∧ (r.1.threads 1).retval0 = 0 ∧
      r.1.evf.value = 0 ∧ r.1.evf.waitingThreadsCount = 0 ∧
      r.1.evf.waitingThreads.take r.1.evf.waitingThreadsCount = [] :=
  ⟨_, rfl, rfl, rfl, rfl, rfl, rfl, rfl, rfl⟩

/-- One pass of the loop of `wait` on a flag without `SINGLE` whose counter has reached the
array size, when the predicate tests false and the timeout is not exhausted. -/
theorem waitLoopBody_abort (w : World) (thread : Nat) (m : WaitMode) (b : Nat)
    (timeout : Option Nat) (hdel : w.evf.isDeleted = false)
    (hcan : (w.threads thread).retval1 = 0)
    (hmiss : (WaitingThread.mk thread b m).test w.evf.value = false)
    (htime : timeout ≠ some 0) (hsingle : w.evf.attrSingle = false)
    (hfull : w.evf.waitingThreads.length ≤ w.evf.waitingThreadsCount) :
    waitLoopBody w thread m b timeout =
      (WaitStep.abort,
        { w with evf := { w.evf with
            waitingThreadsCount := (w.evf.waitingThreadsCount + 1) % 2 ^ 32 } }) := by
  simp [waitLoopBody, hdel, hcan, hmiss, htime, hsingle, hfull]

/-! ## C12 -/

/-- C12: on a live flag without `SINGLE` whose counter equals the array size, a pass of
`wait` that finds no match and no exhausted timeout ends in `std::abort()`: the first pass
of a call, and any later pass of a caller that is not canceled.  No error code is returned
and the array is not written. -/
theorem wait_full_queue_aborts (w : World) (thread : Nat) (m : WaitMode) (b : Nat)
    (timeout : Option Nat) (hdel : w.evf.isDeleted = false)
    (hsingle : w.evf.attrSingle = false)
    (hfull : w.evf.waitingThreadsCount = w.evf.waitingThreads.length)
    (hmiss : (WaitingThread.mk thread b m).test w.evf.value = false)
    (htime : timeout ≠ some 0) :
    (waitFirst w thread m b timeout).1 = WaitStep.abort ∧
    (waitFirst w thread m b timeout).2.evf.waitingThreads = w.evf.waitingThreads ∧
    ((w.threads thread).retval1 = 0 →
      (waitLoopBody w thread m b timeout).1 = WaitStep.abort ∧
      (waitLoopBody w thread m b timeout).2.evf.waitingThreads = w.evf.waitingThreads) := by
  have hlen : w.evf.waitingThreads.length ≤ w.evf.waitingThreadsCount := by omega
  have hfirst := waitLoopBody_abort (waitEnter w thread) thread m b timeout hdel
    (waitEnter_retval1 w thread) hmiss htime hsingle hlen
  unfold waitFirst
  rw [hfirst]
  refine ⟨rfl, rfl, fun hcan => ?_⟩
  rw [waitLoopBody_abort w thread m b timeout hdel hcan hmiss htime hsingle hlen]
  exact ⟨rfl, rfl⟩

/-- C12, instance: a third waiter on the full array of two slots. -/
theorem wait_full_queue_aborts_witness :
    fullQueue.evf.isDeleted = false ∧ fullQueue.evf.attrSingle = false ∧
    fullQueue.evf.waitingThreadsCount = fullQueue.evf.waitingThreads.length ∧
    (WaitingThread.mk 3 4 ⟨.And, .NoClear⟩).test fullQueue.evf.value = false ∧
    (waitFirst fullQueue 3 ⟨.And, .NoClear⟩ 4 none).1 = WaitStep.abort ∧
    (waitFirst fullQueue 3 ⟨.And, .NoClear⟩ 4 none).2.evf.waitingThreads =
      fullQueue.evf.waitingThreads :=
  ⟨rfl, rfl, rfl, rfl,
    (wait_full_queue_aborts fullQueue 3 ⟨.And, .NoClear⟩ 4 none rfl rfl rfl rfl
      (by decide)).1,
    (wait_full_queue_aborts fullQueue 3 ⟨.And, .NoClear⟩ 4 none rfl rfl rfl rfl
      (by decide)).2.1⟩

/-! ## The array against the reference scan -/

/-- Removing the entry at `idx` leaves the entries before it in place. -/
theorem memmove_take_before (arr : List WaitingThread) (idx count : Nat) (hidx : idx < count)
    (hcap : count ≤ arr.length) :
    (memmove arr idx (idx + 1) (count - (idx + 1))).take idx = arr.take idx := by
  unfold memmove
  rw [List.take_append_of_le_length (by simp; omega)]
  rw [List.take_take]
  simp

/-- Removing the entry at `idx` moves the valid entries behind it one slot down. -/
theorem memmove_valid_rest (arr : List WaitingThread) (idx count : Nat) (hidx : idx < count)
    (hcap : count ≤ arr.length) :
    ((memmove arr idx (idx + 1) (count - (idx + 1))).take (count - 1)).drop idx =
      (arr.take count).drop (idx + 1) := by
  unfold memmove
  have h1 : (arr.take idx).length = idx := by simp; omega
  have h2 : ((arr.drop (idx + 1)).take (count - (idx + 1))).length = count - (idx + 1) := by
    simp; omega
  rw [← List.append_assoc]
  rw [List.take_append_of_le_length (by simp; omega)]
  rw [List.take_of_length_le (by simp; omega)]
  rw [List.drop_append_of_le_length (by omega), List.drop_of_length_le (by omega)]
  rw [List.nil_append, List.drop_take]

/-- The first `i + 1` slots are the first `i` slots followed by slot `i`. -/
theorem take_succ_getElem (arr : List WaitingThread) (i : Nat) (h : i < arr.length) :
    arr.take (i + 1) = arr.take i ++ [arr[i]] := by
  rw [List.take_succ, List.getElem?_eq_getElem h]
  rfl

/-- The valid entries from `i` on start with the entry in slot `i`. -/
theorem take_drop_cons (arr : List WaitingThread) (i c : Nat) (hi : i < c)
    (hc : c ≤ arr.length) :
    (arr.take c).drop i = arr[i] :: (arr.take c).drop (i + 1) := by
  have hlen : i < (arr.take c).length := by simp; omega
  rw [List.drop_eq_getElem_cons hlen]
  simp

/-- The loop for flags without `FIFO` computes the reference scan of the valid entries from
`i` on: the same count, the same running pattern, the same kept waiters (the valid range
of the array afterwards) and the same result slots. -/
theorem notifyLoop_refines (type : NotifyType) :
    ∀ (fuel : Nat) (f : NotifyFrame) (i result : Nat),
      f.count ≤ f.world.evf.waitingThreads.length → i ≤ f.count → f.count - i < fuel →
      ∃ r, notifyLoop type fuel f i result = Outcome.done r ∧
        r.2 = (refVisit type ((f.world.evf.waitingThreads.take f.count).drop i)
          { selected := result, pattern := f.patValue,
            kept := f.world.evf.waitingThreads.take i,
            results := fun a => (f.world.threads a).retval0 }).selected ∧
        r.1.patValue = (refVisit type ((f.world.evf.waitingThreads.take f.count).drop i)
          { selected := result, pattern := f.patValue,
            kept := f.world.evf.waitingThreads.take i,
            results := fun a => (f.world.threads a).retval0 }).pattern ∧
        r.1.world.evf.waitingThreads.take r.1.count =
          (refVisit type ((f.world.evf.waitingThreads.take f.count).drop i)
          { selected := result, pattern := f.patValue,
            kept := f.world.evf.waitingThreads.take i,
            results := fun a => (f.world.threads a).retval0 }).kept ∧
        (∀ a, (r.1.world.threads a).retval0 =
          (refVisit type ((f.world.evf.waitingThreads.take f.count).drop i)
          { selected := result, pattern := f.patValue,
            kept := f.world.evf.waitingThreads.take i,
            results := fun a => (f.world.threads a).retval0 }).results a) := by
  intro fuel
  induction fuel with
  | zero => intro f i result _ _ h; omega
  | succ fuel ih =>
    intro f i result hcap hi hfuel
    by_cases hlt : i < f.count
    · have hlen : i < f.world.evf.waitingThreads.length := by omega
      have hget : f.world.evf.waitingThreads[i]? = some (f.world.evf.waitingThreads[i]) :=
        List.getElem?_eq_getElem hlen
      rw [notifyLoop, if_pos hlt, testThread_inRange type f i _ hget hlt hcap,
        take_drop_cons _ i f.count hlt hcap]
      by_cases hsel : type = NotifyType.Set ∧
          (f.world.evf.waitingThreads[i]).test f.patValue = false
      · rw [if_pos hsel]
        have hnot : ¬ (type ≠ NotifyType.Set ∨
            (f.world.evf.waitingThreads[i]).test f.patValue = true) := by
          rintro (h | h)
          · exact h hsel.1
          · rw [hsel.2] at h; cases h
        obtain ⟨r, hr, h1, h2, h3, h4⟩ := ih f (i + 1) result hcap (by omega) (by omega)
        rw [take_succ_getElem _ i hlen] at h1 h2 h3 h4
        refine ⟨r, by simpa using hr, ?_, ?_, ?_, ?_⟩
        · rw [refVisit, if_neg hnot]; exact h1
        · rw [refVisit, if_neg hnot]; exact h2
        · rw [refVisit, if_neg hnot]; exact h3
        · rw [refVisit, if_neg hnot]; exact h4
      · rw [if_neg hsel]
        have hyes : type ≠ NotifyType.Set ∨
            (f.world.evf.waitingThreads[i]).test f.patValue = true := by
          by_cases hty : type = NotifyType.Set
          · right
            cases ht : (f.world.evf.waitingThreads[i]).test f.patValue
            · exact absurd ⟨hty, ht⟩ hsel
            · rfl
          · left; exact hty
        have hcap2 : (selectFrame type f i (f.world.evf.waitingThreads[i])).count ≤
            (selectFrame type f i
              (f.world.evf.waitingThreads[i])).world.evf.waitingThreads.length := by
          show f.count - 1 ≤ (memmove _ _ _ _).length
          rw [memmove_length _ _ _ hlt hcap]; omega
        obtain ⟨r, hr, h1, h2, h3, h4⟩ :=
          ih (selectFrame type f i (f.world.evf.waitingThreads[i])) i (result + 1) hcap2
            (by show i ≤ f.count - 1; omega) (by show f.count - 1 - i < fuel; omega)
        have e1 : ((selectFrame type f i
            (f.world.evf.waitingThreads[i])).world.evf.waitingThreads.take
            (selectFrame type f i (f.world.evf.waitingThreads[i])).count).drop i =
            (f.world.evf.waitingThreads.take f.count).drop (i + 1) :=
          memmove_valid_rest _ i f.count hlt hcap
        have e2 : (selectFrame type f i
            (f.world.evf.waitingThreads[i])).world.evf.waitingThreads.take i =
            f.world.evf.waitingThreads.take i :=
          memmove_take_before _ i f.count hlt hcap
        have e3 : (fun a => ((selectFrame type f i
            (f.world.evf.waitingThreads[i])).world.threads a).retval0) =
            (fun a => if a = (f.world.evf.waitingThreads[i]).thread then
              (f.world.evf.waitingThreads[i]).applyClear f.patValue
              else (f.world.threads a).retval0) := by
          funext a
          show (setThread _ _ _ a).retval0 = _
          unfold setThread
          split_ifs <;> rfl
        have e4 : (selectFrame type f i (f.world.evf.waitingThreads[i])).patValue =
            (f.world.evf.waitingThreads[i]).applyClear f.patValue := rfl
        rw [e1, e2, e3, e4] at h1 h2 h3 h4
        refine ⟨r, by simpa using hr, ?_, ?_, ?_, ?_⟩
        · rw [refVisit, if_pos hyes]; exact h1
        · rw [refVisit, if_pos hyes]; exact h2
        · rw [refVisit, if_pos hyes]; exact h3
        · rw [refVisit, if_pos hyes]; exact h4
    · have hic : i = f.count := by omega
      have hnil : (f.world.evf.waitingThreads.take f.count).drop i = [] := by
        apply List.drop_of_length_le; simp; omega
      rw [hnil]
      refine ⟨(f, result), by rw [notifyLoop, if_neg hlt], rfl, rfl, ?_, fun _ => rfl⟩
      show f.world.evf.waitingThreads.take f.count = f.world.evf.waitingThreads.take i
      rw [hic]

/-- The code before the loops leaves the array, the counter, the `SINGLE` attribute, the
threads and the wake log alone. -/
theorem notifyBegin_evf_fields (w : World) (type : NotifyType) (bits : Nat) :
    (notifyBegin w type bits).world.evf.waitingThreads = w.evf.waitingThreads ∧
    (notifyBegin w type bits).world.evf.waitingThreadsCount = w.evf.waitingThreadsCount ∧
    (notifyBegin w type bits).world.evf.attrSingle = w.evf.attrSingle ∧
    (notifyBegin w type bits).world.threads = w.threads ∧
    (notifyBegin w type bits).world.notified = w.notified := by
  unfold notifyBegin
  split_ifs <;> exact ⟨rfl, rfl, rfl, rfl, rfl⟩

/-- On a well-formed flag without `FIFO`, `notify` agrees with its list-level reference:
it returns the number of selected waiters, commits the reference pattern, leaves the
waiters that were not selected as the valid range of the array, in their original order,
and leaves the reference values in the result slots. -/
theorem notify_refines_plain (fuel : Nat) (w : World) (type : NotifyType) (bits : Nat)
    (hfifo : w.evf.attrThFifo = false) (hwf : WellFormed w)
    (hfuel : w.evf.waitingThreadsCount < fuel) :
    ∃ r, notify fuel w type bits = Outcome.done r ∧
      r.2 = (notifyRef w type bits).selected ∧
      r.1.evf.value = (notifyRef w type bits).pattern ∧
      r.1.evf.waitingThreads.take r.1.evf.waitingThreadsCount = (notifyRef w type bits).kept ∧
      (∀ a, (r.1.threads a).retval0 = (notifyRef w type bits).results a) := by
  obtain ⟨hA, hC, _, hT, _⟩ := notifyBegin_evf_fields w type bits
  have hc0 : (notifyBegin w type bits).count = w.evf.waitingThreadsCount := rfl
  have hp0 : (notifyBegin w type bits).patValue =
      if type = NotifyType.Set then w.evf.value ||| bits else w.evf.value := rfl
  have hcap : (notifyBegin w type bits).count ≤
      (notifyBegin w type bits).world.evf.waitingThreads.length := by
    rw [hA, hc0]; exact hwf.1
  obtain ⟨r, hr, h1, h2, h3, h4⟩ :=
    notifyLoop_refines type fuel (notifyBegin w type bits) 0 0 hcap (Nat.zero_le _)
      (by rw [hc0]; omega)
  obtain ⟨r2, hr2, _, _, hsync, _⟩ :=
    notifyLoop_returns type fuel (notifyBegin w type bits) 0 0 hcap (Nat.zero_le _)
      (by rw [hc0]; omega)
  have hrr : r2 = r := by
    rw [hr] at hr2; cases hr2; rfl
  subst hrr
  have hs := hsync (by rw [hC, hc0]) (by rw [hc0]; exact hwf.2)
  rw [hA, hT, hc0, hp0, List.drop_zero, List.take_zero] at h1 h2 h3 h4
  refine ⟨notifyEnd type bits r2, ?_, ?_, ?_, ?_, ?_⟩
  · simp [notify, hfifo, hr]
  · simpa [notifyRef, notifyEnd, hfifo] using h1
  · show (if type = NotifyType.Cancel then bits else r2.1.patValue) = _
    simp only [notifyRef, hfifo, Bool.false_eq_true, if_false]
    rw [h2]
  · show r2.1.world.evf.waitingThreads.take r2.1.world.evf.waitingThreadsCount = _
    rw [hs, h3]
    simp [notifyRef, hfifo]
  · intro a
    show (r2.1.world.threads a).retval0 = _
    rw [h4 a]
    simp [notifyRef, hfifo]

/-- A call of `testThread` that returns has either rejected the entry and changed nothing,
or selected an entry inside the valid range. -/
theorem testThread_done_cases (type : NotifyType) (f : NotifyFrame) (idx : Nat)
    (r : NotifyFrame × Bool) (h : testThread type f idx = Outcome.done r) :
    r = (f, false) ∨
    ∃ t, f.world.evf.waitingThreads[idx]? = some t ∧ idx < f.count ∧
      f.count ≤ f.world.evf.waitingThreads.length ∧ r = (selectFrame type f idx t, true) := by
  cases hget : f.world.evf.waitingThreads[idx]? with
  | none => simp [testThread, hget] at h
  | some t =>
    by_cases hb : idx < f.count ∧ f.count ≤ f.world.evf.waitingThreads.length
    · rw [testThread_inRange type f idx t hget hb.1 hb.2] at h
      split_ifs at h
      · cases h; exact Or.inl rfl
      · cases h; exact Or.inr ⟨t, rfl, hb.1, hb.2, rfl⟩
    · have hb2 : f.count < idx + 1 ∨ f.world.evf.waitingThreads.length < f.count := by omega
      by_cases hsel : type = NotifyType.Set ∧ t.test f.patValue = false
      · simp [testThread, hget, hsel] at h
        exact Or.inl h.symm
      · simp [testThread, hget, hsel, hb2] at h

/-- A call of `testThread` that returns keeps `count` and the counter of the object in
step, does not raise them, and leaves the `SINGLE` attribute alone. -/
theorem testThread_sync (type : NotifyType) (f : NotifyFrame) (idx : Nat)
    (r : NotifyFrame × Bool) (h : testThread type f idx = Outcome.done r)
    (hs : FrameSync f) :
    FrameSync r.1 ∧ r.1.count ≤ f.count ∧
    r.1.world.evf.attrSingle = f.world.evf.attrSingle := by
  rcases testThread_done_cases type f idx r h with rfl | ⟨t, _, hidx, hcap, rfl⟩
  · exact ⟨hs, Nat.le_refl _, rfl⟩
  · obtain ⟨h1, h2, h3⟩ := hs
    refine ⟨⟨?_, ?_, ?_⟩, ?_, rfl⟩
    · show (f.world.evf.waitingThreadsCount + (2 ^ 32 - 1)) % 2 ^ 32 = f.count - 1
      rw [h1]; omega
    · show f.count - 1 ≤ (memmove _ _ _ _).length
      rw [memmove_length _ _ _ hidx hcap]; omega
    · show f.count - 1 < 2 ^ 32
      omega
    · show f.count - 1 ≤ f.count
      omega

/-- A run of the `FIFO` loop that returns keeps `count` and the counter of the object in
step and does not raise them. -/
theorem notifyFifoLoop_sync (type : NotifyType) :
    ∀ (fuel : Nat) (f : NotifyFrame) (i result : Nat) (r : NotifyFrame × Nat),
      notifyFifoLoop type fuel f i result = Outcome.done r → FrameSync f →
      FrameSync r.1 ∧ r.1.count ≤ f.count ∧
      r.1.world.evf.attrSingle = f.world.evf.attrSingle := by
  intro fuel
  induction fuel with
  | zero => intro f i result r h; cases h
  | succ fuel ih =>
    intro f i result r h hs
    rw [notifyFifoLoop] at h
    split_ifs at h with hi
    · cases ht : testThread type f (i - 1) with
      | done t =>
        rw [ht] at h
        obtain ⟨s1, s2, s3⟩ := testThread_sync type f (i - 1) t ht hs
        by_cases hsel : t.2 = true
        · simp only [hsel, if_true] at h
          obtain ⟨a1, a2, a3⟩ := ih _ _ _ _ h s1
          exact ⟨a1, by omega, by rw [a3, s3]⟩
        · simp only [hsel, if_false] at h
          obtain ⟨a1, a2, a3⟩ := ih _ _ _ _ h s1
          exact ⟨a1, by omega, by rw [a3, s3]⟩
      | fault => rw [ht] at h; cases h
      | outOfFuel => rw [ht] at h; cases h
    · cases h; exact ⟨hs, Nat.le_refl _, rfl⟩

/-- A run of the loop for flags without `FIFO` that returns keeps `count` and the counter
of the object in step and does not raise them. -/
theorem notifyLoop_sync (type : NotifyType) :
    ∀ (fuel : Nat) (f : NotifyFrame) (i result : Nat) (r : NotifyFrame × Nat),
      notifyLoop type fuel f i result = Outcome.done r → FrameSync f →
      FrameSync r.1 ∧ r.1.count ≤ f.count ∧
      r.1.world.evf.attrSingle = f.world.evf.attrSingle := by
  intro fuel
  induction fuel with
  | zero => intro f i result r h; cases h
  | succ fuel ih =>
    intro f i result r h hs
    rw [notifyLoop] at h
    split_ifs at h with hi
    · cases ht : testThread type f i with
      | done t =>
        rw [ht] at h
        obtain ⟨s1, s2, s3⟩ := testThread_sync type f i t ht hs
        by_cases hsel : t.2 = true
        · simp only [hsel, if_true] at h
          obtain ⟨a1, a2, a3⟩ := ih _ _ _ _ h s1
          exact ⟨a1, by omega, by rw [a3, s3]⟩
        · simp only [hsel, if_false] at h
          obtain ⟨a1, a2, a3⟩ := ih _ _ _ _ h s1
          exact ⟨a1, by omega, by rw [a3, s3]⟩
      | fault => rw [ht] at h; cases h
      | outOfFuel => rw [ht] at h; cases h
    · cases h; exact ⟨hs, Nat.le_refl _, rfl⟩

/-- A `notify` call that returns preserves the invariant of the counter and does not raise
the counter. -/
theorem notify_preserves_inv (fuel : Nat) (w : World) (type : NotifyType) (bits : Nat)
    (r : World × Nat) (h : notify fuel w type bits = Outcome.done r) (hinv : Inv w) :
    Inv r.1 ∧ r.1.evf.waitingThreadsCount ≤ w.evf.waitingThreadsCount := by
  obtain ⟨hA, hC, hS, _, _⟩ := notifyBegin_evf_fields w type bits
  have hc0 : (notifyBegin w type bits).count = w.evf.waitingThreadsCount := rfl
  have hsync : FrameSync (notifyBegin w type bits) :=
    ⟨by rw [hC, hc0], by rw [hA, hc0]; exact hinv.1.1, by rw [hc0]; exact hinv.1.2⟩
  unfold notify at h
  cases hs : (if w.evf.attrThFifo then
      notifyFifoLoop type fuel (notifyBegin w type bits) (notifyBegin w type bits).count 0
      else notifyLoop type fuel (notifyBegin w type bits) 0 0) with
  | done s =>
    simp only [hs] at h
    cases h
    have hd : FrameSync s.1 ∧ s.1.count ≤ (notifyBegin w type bits).count ∧
        s.1.world.evf.attrSingle = (notifyBegin w type bits).world.evf.attrSingle := by
      split_ifs at hs
      · exact notifyFifoLoop_sync type _ _ _ _ _ hs hsync
      · exact notifyLoop_sync type _ _ _ _ _ hs hsync
    obtain ⟨⟨d1, d2, d3⟩, d4, d5⟩ := hd
    have hle : s.1.world.evf.waitingThreadsCount ≤ w.evf.waitingThreadsCount := by
      rw [d1]; rw [hc0] at d4; exact d4
    refine ⟨⟨⟨?_, ?_⟩, ?_⟩, hle⟩
    · show s.1.world.evf.waitingThreadsCount ≤ s.1.world.evf.waitingThreads.length
      rw [d1]; exact d2
    · show s.1.world.evf.waitingThreadsCount < 2 ^ 32
      rw [d1]; exact d3
    · intro hsingle
      have hsingle2 : w.evf.attrSingle = true := by
        have : s.1.world.evf.attrSingle = true := hsingle
        rw [d5, hS] at this; exact this
      have := hinv.2 hsingle2
      show s.1.world.evf.waitingThreadsCount ≤ 1
      omega
  | fault => simp only [hs] at h; cases h
  | outOfFuel => simp only [hs] at h; cases h

/-- A pass of the loop of `wait` that does not end in `std::abort()` preserves the
invariant of the counter. -/
theorem waitLoopBody_preserves_inv (w : World) (thread : Nat) (m : WaitMode) (b : Nat)
    (timeout : Option Nat) (hinv : Inv w)
    (hret : (waitLoopBody w thread m b timeout).1 ≠ WaitStep.abort) :
    Inv (waitLoopBody w thread m b timeout).2 := by
  obtain ⟨⟨h1, h2⟩, h3⟩ := hinv
  unfold waitLoopBody at hret ⊢
  dsimp only at hret ⊢
  split_ifs at hret ⊢ with c1 c2 c3 c4 c5 c6 c7 c8
  · exact ⟨⟨h1, h2⟩, h3⟩
  · exact ⟨⟨h1, h2⟩, h3⟩
  · exact ⟨⟨h1, h2⟩, h3⟩
  · exact ⟨⟨h1, h2⟩, h3⟩
  · refine ⟨⟨?_, ?_⟩, fun _ => ?_⟩
    · show 1 ≤ w.evf.waitingThreads.length
      have := c5.2; omega
    · show 1 < 2 ^ 32
      norm_num
    · show 1 ≤ 1
      omega
  · exact absurd rfl hret
  · have hz : w.evf.waitingThreadsCount = 0 := by
      by_contra hne; exact c5 ⟨c6, hne⟩
    refine ⟨⟨?_, ?_⟩, fun _ => ?_⟩
    · show (w.evf.waitingThreadsCount + 1) % 2 ^ 32 ≤ (List.set _ _ _).length
      rw [List.length_set, hz]
      show 1 ≤ w.evf.waitingThreads.length
      omega
    · show (w.evf.waitingThreadsCount + 1) % 2 ^ 32 < 2 ^ 32
      exact Nat.mod_lt _ (by norm_num)
    · show (w.evf.waitingThreadsCount + 1) % 2 ^ 32 ≤ 1
      rw [hz]
      decide
  · exact absurd rfl hret
  · refine ⟨⟨?_, ?_⟩, fun hs => absurd hs c6⟩
    · show (w.evf.waitingThreadsCount + 1) % 2 ^ 32 ≤ (List.set _ _ _).length
      rw [List.length_set]
      have := Nat.mod_le (w.evf.waitingThreadsCount + 1) (2 ^ 32)
      omega
    · show (w.evf.waitingThreadsCount + 1) % 2 ^ 32 < 2 ^ 32
      exact Nat.mod_lt _ (by norm_num)

/-! ## Scans that select nobody -/

/-- The loop for flags without `FIFO`, kind `Set`: when no entry from `i` to `count - 1`
tests true on the running pattern, the loop ends with the frame it started from. -/
theorem notifyLoop_no_match :
    ∀ (fuel : Nat) (f : NotifyFrame) (i result : Nat),
      (∀ idx t, i ≤ idx → idx < f.count → f.world.evf.waitingThreads[idx]? = some t →
        t.test f.patValue = false) →
      f.count ≤ f.world.evf.waitingThreads.length → f.count - i < fuel →
      notifyLoop NotifyType.Set fuel f i result = Outcome.done (f, result) := by
  intro fuel
  induction fuel with
  | zero => intro f i result _ _ h; omega
  | succ fuel ih =>
    intro f i result hno hcap hfuel
    by_cases hlt : i < f.count
    · have hlen : i < f.world.evf.waitingThreads.length := by omega
      have hget : f.world.evf.waitingThreads[i]? = some (f.world.evf.waitingThreads[i]) :=
        List.getElem?_eq_getElem hlen
      have hmiss := hno i _ (Nat.le_refl i) hlt hget
      rw [notifyLoop, if_pos hlt, testThread_inRange NotifyType.Set f i _ hget hlt hcap,
        if_pos ⟨rfl, hmiss⟩]
      simpa using ih f (i + 1) result
        (fun idx t h1 h2 h3 => hno idx t (by omega) h2 h3) hcap (by omega)
    · rw [notifyLoop, if_neg hlt]

/-- The `FIFO` loop, kind `Set`: when no entry below `i` tests true on the running pattern,
the loop ends with the frame it started from. -/
theorem notifyFifoLoop_no_match :
    ∀ (fuel : Nat) (f : NotifyFrame) (i result : Nat),
      (∀ idx t, idx < i → f.world.evf.waitingThreads[idx]? = some t →
        t.test f.patValue = false) →
      i ≤ f.count → f.count ≤ f.world.evf.waitingThreads.length → i < fuel →
      notifyFifoLoop NotifyType.Set fuel f i result = Outcome.done (f, result) := by
  intro fuel
  induction fuel with
  | zero => intro f i result _ _ _ h; omega
  | succ fuel ih =>
    intro f i result hno hi hcap hfuel
    by_cases hpos : i > 0
    · have hlen : i - 1 < f.world.evf.waitingThreads.length := by omega
      have hget : f.world.evf.waitingThreads[i - 1]? =
          some (f.world.evf.waitingThreads[i - 1]) := List.getElem?_eq_getElem hlen
      have hmiss := hno (i - 1) _ (by omega) hget
      rw [notifyFifoLoop, if_pos hpos,
        testThread_inRange NotifyType.Set f (i - 1) _ hget (by omega) hcap,
        if_pos ⟨rfl, hmiss⟩]
      simpa using ih f (i - 1) result
        (fun idx t h1 h3 => hno idx t (by omega) h3) (by omega) hcap (by omega)
    · rw [notifyFifoLoop, if_neg hpos]

/-! ## C13 -/

/-- The invariant of the counter, `waitingThreadsCount ≤ std::size(waitingThreads)` and
`waitingThreadsCount ≤ 1` on a `SINGLE` flag, is preserved by `tryWait`, by the entry code
of `wait`, by every pass of `wait` that does not end in `std::abort()` and by every
`notify` call that returns. -/
theorem counter_invariant_preserved (w : World) (hinv : Inv w) (thread : Nat)
    (m : WaitMode) (b : Nat) (timeout : Option Nat) (fuel : Nat) (type : NotifyType)
    (bits : Nat) :
    Inv (tryWait w thread m b).2 ∧
    Inv (waitEnter w thread) ∧
    ((waitLoopBody w thread m b timeout).1 ≠ WaitStep.abort →
      Inv (waitLoopBody w thread m b timeout).2) ∧
    ((waitFirst w thread m b timeout).1 ≠ WaitStep.abort →
      Inv (waitFirst w thread m b timeout).2) ∧
    (∀ r, notify fuel w type bits = Outcome.done r → Inv r.1) := by
  refine ⟨?_, hinv, waitLoopBody_preserves_inv w thread m b timeout hinv,
    waitLoopBody_preserves_inv (waitEnter w thread) thread m b timeout hinv,
    fun r h => (notify_preserves_inv fuel w type bits r h hinv).1⟩
  unfold tryWait
  dsimp only
  split_ifs <;> exact hinv

/-- C13 fails on the code in its last part: on the `FIFO` flag `fifoOne` (one waiter, AND
on bit 0, ClearAll) `notify(Set, 1)` returns 1, yet it calls `testThread` on an index
outside the valid range.  The first pass selects index 0 and leaves `count` and
`waitingThreadsCount` at 0 with the loop variable still 1, so the second pass tests index
`1 - 1 = 0` of an empty valid range (the stale entry no longer matches the cleared pattern
and is rejected).  With `Cancel` the second pass would select the stale entry again, taking
the counter of the object from 0 to `2 ^ 32 - 1`. -/
theorem notify_fifo_tests_outside_valid_range :
    ∃ f1, testThread NotifyType.Set (notifyBegin fifoOne NotifyType.Set 1) 0 =
        Outcome.done (f1, true) ∧
      f1.count = 0 ∧ f1.world.evf.waitingThreadsCount = 0 ∧
      (∀ n, notifyFifoLoop NotifyType.Set (n + 2) (notifyBegin fifoOne NotifyType.Set 1) 1 0 =
        notifyFifoLoop NotifyType.Set (n + 1) f1 1 1) ∧
      testThread NotifyType.Set f1 (1 - 1) = Outcome.done (f1, false) ∧
      (∀ n, ∃ r, notify (n + 3) fifoOne NotifyType.Set 1 = Outcome.done r ∧ r.2 = 1) ∧
      (selectFrame NotifyType.Cancel f1 0
        { thread := 1, bitPattern := 1,
          waitMode := { matchMode := .And, clearMode := .ClearAll }
        }).world.evf.waitingThreadsCount = 2 ^ 32 - 1 :=
  ⟨selectFrame NotifyType.Set (notifyBegin fifoOne NotifyType.Set 1) 0
      { thread := 1, bitPattern := 1,
        waitMode := { matchMode := .And, clearMode := .ClearAll } },
    rfl, rfl, rfl, fun _ => rfl, rfl, fun _ => ⟨_, rfl, rfl⟩, by decide⟩

/-! ## C14 -/

/-- C14 fails on the code for `FIFO` flags.  On `fifoThree` the reference of
`notify(Cancel, 9)` selects all three waiters, commits 9 and keeps nobody, while the
array-based `notify` does not return, whatever the fuel.  On `fifoNoClear` the reference of
`notify(Set, 1)` selects the waiter once and commits 1, while the array-based `notify`
selects it a second time and does not return.  On the scenario flag, where every removed
waiter stops matching, the two agree. -/
theorem notify_fifo_differs_from_reference :
    (∀ fuel : Nat, (notify fuel fifoThree NotifyType.Cancel 9).isDone = false) ∧
    (notifyRef fifoThree NotifyType.Cancel 9).selected = 3 ∧
    (notifyRef fifoThree NotifyType.Cancel 9).pattern = 9 ∧
    (notifyRef fifoThree NotifyType.Cancel 9).kept = [] ∧
    (∀ fuel : Nat, (notify fuel fifoNoClear NotifyType.Set 1).isDone = false) ∧
    (notifyRef fifoNoClear NotifyType.Set 1).selected = 1 ∧
    (notifyRef fifoNoClear NotifyType.Set 1).pattern = 1 ∧
    (notifyRef fifoNoClear NotifyType.Set 1).kept = [] ∧
    (∃ r, notify 5 scenarioAB NotifyType.Set 7 = Outcome.done r ∧
      r.2 = (notifyRef scenarioAB NotifyType.Set 7).selected ∧
      r.1.evf.value = (notifyRef scenarioAB NotifyType.Set 7).pattern ∧
      r.1.evf.waitingThreads.take r.1.evf.waitingThreadsCount =
        (notifyRef scenarioAB NotifyType.Set 7).kept) := by
  refine ⟨?_, by decide, by decide, by decide, ?_, by decide, by decide, by decide,
    ⟨_, rfl, by decide, by decide, by decide⟩⟩
  · intro fuel
    match fuel with
    | 0 => rfl
    | 1 => rfl
    | n + 2 => rfl
  · intro fuel
    match fuel with
    | 0 => rfl
    | 1 => rfl
    | n + 2 => rfl

/-! ## C15 -/

/-- C15 fails on the code: on `plainOne` (no `FIFO`, pattern 0, thread 1 queued with AND
on bit 0 and ClearAll) `notify(Set, 1)` selects thread 1, signals it, empties the queue and
commits the cleared pattern 0.  When the `wait` of thread 1 then resumes in that state, its
loop tests the predicate against the cleared pattern, finds no match and stores the waiter
in the array again: the pass ends at `sync_cv.wait`, not in a successful return.  With a
timeout that has run out the same pass returns `TIMEDOUT`. -/
theorem wait_after_notify_set_blocks_again :
    ∃ r, notify 2 plainOne NotifyType.Set 1 = Outcome.done r ∧
      r.2 = 1 ∧ r.1.notified = [1] ∧ r.1.evf.waitingThreadsCount = 0 ∧
      r.1.evf.value = 0 ∧ (r.1.threads 1).retval0 = 0 ∧ (r.1.threads 1).retval1 = 0 ∧
      (waitResume r.1 1 ⟨.And, .ClearAll⟩ 1 none (2 ^ 64 - 1) 5).1.1 = WaitStep.suspend ∧
      (waitResume r.1 1 ⟨.And, .ClearAll⟩ 1 none (2 ^ 64 - 1) 5).1.2.evf.waitingThreadsCount
        = 1 ∧
      (waitResume r.1 1 ⟨.And, .ClearAll⟩ 1 none (2 ^ 64 - 1) 5).1.2.evf.waitingThreads.take 1
        = [{ thread := 1, bitPattern := 1,
             waitMode := { matchMode := .And, clearMode := .ClearAll } }] ∧
      (waitResume r.1 1 ⟨.And, .ClearAll⟩ 1 (some 100) 100 100).1.1 =
        WaitStep.ret ErrorCode.TIMEDOUT :=
  ⟨_, rfl, rfl, rfl, rfl, rfl, rfl, rfl, rfl, rfl, rfl, rfl⟩

/-! ## C16 -/

/-- C16: on a well-formed flag, `FIFO` or not, on which no queued waiter tests true on
`pattern | bits`, `notify(Set, bits)` returns 0 once the fuel exceeds the number of queued
waiters, and the state it leaves is the old state with the pattern replaced by
`pattern | bits`: the waiter array, the counter, the deleted flag, the threads with their
result and canceled slots and the wake log are unchanged. -/
theorem notify_set_no_match (fuel : Nat) (w : World) (bits : Nat)
    (hwf : WellFormed w) (hfuel : w.evf.waitingThreadsCount < fuel)
    (hno : ∀ idx t, idx < w.evf.waitingThreadsCount → w.evf.waitingThreads[idx]? = some t →
      t.test (w.evf.value ||| bits) = false) :
    notify fuel w NotifyType.Set bits =
      Outcome.done ({ w with evf := { w.evf with value := w.evf.value ||| bits } }, 0) := by
  have hb : notifyBegin w NotifyType.Set bits =
      { world := w, count := w.evf.waitingThreadsCount, patValue := w.evf.value ||| bits } := by
    simp [notifyBegin]
  unfold notify
  rw [hb]
  cases hf : w.evf.attrThFifo
  · simp only [Bool.false_eq_true, if_false]
    rw [notifyLoop_no_match fuel _ 0 0 (fun idx t _ h2 h3 => hno idx t h2 h3) hwf.1
      (by show w.evf.waitingThreadsCount - 0 < fuel; omega)]
    rfl
  · simp only [if_true]
    rw [notifyFifoLoop_no_match fuel _ _ 0 (fun idx t h2 h3 => hno idx t h2 h3)
      (Nat.le_refl _) hwf.1 hfuel]
    rfl

/-- C16, instance: on the `FIFO` flag `fifoTwo` (waiters for bit 0 and for bit 1)
`notify(Set, 0b100)` wakes nobody and only changes the pattern. -/
theorem notify_set_no_match_witness :
    WellFormed fifoTwo ∧ fifoTwo.evf.waitingThreadsCount < 3 ∧
    notify 3 fifoTwo NotifyType.Set 4 =
      Outcome.done
        ({ fifoTwo with evf := { fifoTwo.evf with value := fifoTwo.evf.value ||| 4 } }, 0) :=
  ⟨by decide, by decide,
    notify_set_no_match 3 fifoTwo 4 (by decide) (by decide) (by
      intro idx t hidx hget
      have h2 : idx < 2 := hidx
      interval_cases idx <;> cases hget <;> rfl)⟩

/-! ## C17 -/

/-- C17: for an original timeout `T` that fits 32 bits and any elapsed time `e`, the value
that `update_timeout` writes through a non-null timeout pointer, which is the value the
next pass of `wait` sees, is `T - e` when `T > e` and 0 otherwise; it never exceeds `T`,
fits 32 bits, and does not grow when `e` grows. -/
theorem update_timeout_remaining (t0 T e : Nat) (hT : T < 2 ^ 32) :
    update_timeout (some t0) T e = some (if T > e then T - e else 0) ∧
    (∀ (w : World) (thread : Nat) (m : WaitMode) (b : Nat),
      (waitResume w thread m b (some t0) T e).2 = some (if T > e then T - e else 0)) ∧
    (∀ v, update_timeout (some t0) T e = some v → v ≤ T ∧ v < 2 ^ 32) ∧
    (∀ e2 t1 v v2, e ≤ e2 → update_timeout (some t0) T e = some v →
      update_timeout (some t1) T e2 = some v2 → v2 ≤ v) := by
  have key : ∀ (t x : Nat), update_timeout (some t) T x = some (if T > x then T - x else 0) := by
    intro t x
    unfold update_timeout
    by_cases h : T > x
    · simp only [h, if_true]
      rw [Nat.mod_eq_of_lt (by omega)]
    · simp only [h, if_false]
  refine ⟨key t0 e, fun w thread m b => key t0 e, ?_, ?_⟩
  · intro v hv
    rw [key] at hv
    cases hv
    split_ifs <;> omega
  · intro e2 t1 v v2 hle hv hv2
    rw [key] at hv hv2
    cases hv
    cases hv2
    split_ifs <;> omega

/-- C17, instance: a timeout of 100 microseconds after 40 and after 250 microseconds. -/
theorem update_timeout_remaining_witness :
    (100 : Nat) < 2 ^ 32 ∧ update_timeout (some 100) 100 40 = some 60 ∧
    update_timeout (some 60) 100 250 = some 0 :=
  ⟨by norm_num, (update_timeout_remaining 100 100 40 (by norm_num)).1,
    (update_timeout_remaining 60 100 250 (by norm_num)).1⟩

/-! ## C18 -/

/-- C18 fails on the code: thread 7 calls `wait` with a timeout of 100 microseconds on the
empty `SINGLE` flag `singleEmpty` and is suspended as its only waiter.  When it wakes after
40 microseconds with still no match, `*timeout` becomes 60, and the next pass of its own
loop finds `waitingThreadsCount` at 1, counting its own entry, and returns `PERM`; it is not
suspended again. -/
theorem wait_single_resume_perm :
    (waitFirst singleEmpty 7 ⟨.And, .ClearAll⟩ 1 (some 100)).1 = WaitStep.suspend ∧
    (waitFirst singleEmpty 7 ⟨.And, .ClearAll⟩ 1 (some 100)).2.evf.waitingThreadsCount = 1 ∧
    (waitFirst singleEmpty 7 ⟨.And, .ClearAll⟩ 1 (some 100)).2.evf.waitingThreads.take 1 =
      [{ thread := 7, bitPattern := 1,
         waitMode := { matchMode := .And, clearMode := .ClearAll } }] ∧
    (waitResume (waitFirst singleEmpty 7 ⟨.And, .ClearAll⟩ 1 (some 100)).2 7
      ⟨.And, .ClearAll⟩ 1 (some 100) 100 40).2 = some 60 ∧
    (waitResume (waitFirst singleEmpty 7 ⟨.And, .ClearAll⟩ 1 (some 100)).2 7
      ⟨.And, .ClearAll⟩ 1 (some 100) 100 40).1.1 = WaitStep.ret ErrorCode.PERM := by
  decide

/-! ## C19 -/

/-- C19 fails on the code: thread 7 calls `wait` with a timeout of 100 microseconds on the
empty flag `sampleZero` and is suspended with one entry.  If it wakes after 40 microseconds
with no match, the next pass stores a second entry for it: the valid range holds thread 7
twice.  If it wakes after 100 microseconds, the next pass returns `TIMEDOUT` and the entry
of thread 7, which is no longer inside `wait`, is still in the valid range. -/
theorem wait_resume_leaves_entries :
    (waitFirst sampleZero 7 ⟨.And, .ClearAll⟩ 1 (some 100)).1 = WaitStep.suspend ∧
    (waitFirst sampleZero 7 ⟨.And, .ClearAll⟩ 1 (some 100)).2.evf.waitingThreads.take
        (waitFirst sampleZero 7 ⟨.And, .ClearAll⟩ 1 (some 100)).2.evf.waitingThreadsCount =
      [{ thread := 7, bitPattern := 1,
         waitMode := { matchMode := .And, clearMode := .ClearAll } }] ∧
    (waitResume (waitFirst sampleZero 7 ⟨.And, .ClearAll⟩ 1 (some 100)).2 7
      ⟨.And, .ClearAll⟩ 1 (some 100) 100 40).1.1 = WaitStep.suspend ∧
    (waitResume (waitFirst sampleZero 7 ⟨.And, .ClearAll⟩ 1 (some 100)).2 7
      ⟨.And, .ClearAll⟩ 1 (some 100) 100 40).1.2.evf.waitingThreads.take
        (waitResume (waitFirst sampleZero 7 ⟨.And, .ClearAll⟩ 1 (some 100)).2 7
          ⟨.And, .ClearAll⟩ 1 (some 100) 100 40).1.2.evf.waitingThreadsCount =
      [{ thread := 7, bitPattern := 1,
         waitMode := { matchMode := .And, clearMode := .ClearAll } },
       { thread := 7, bitPattern := 1,
         waitMode := { matchMode := .And, clearMode := .ClearAll } }] ∧
    (waitResume (waitFirst sampleZero 7 ⟨.And, .ClearAll⟩ 1 (some 100)).2 7
      ⟨.And, .ClearAll⟩ 1 (some 100) 100 100).1.1 = WaitStep.ret ErrorCode.TIMEDOUT ∧
    (waitResume (waitFirst sampleZero 7 ⟨.And, .ClearAll⟩ 1 (some 100)).2 7
      ⟨.And, .ClearAll⟩ 1 (some 100) 100 100).1.2.evf.waitingThreads.take
        (waitResume (waitFirst sampleZero 7 ⟨.And, .ClearAll⟩ 1 (some 100)).2 7
          ⟨.And, .ClearAll⟩ 1 (some 100) 100 100).1.2.evf.waitingThreadsCount =
      [{ thread := 7, bitPattern := 1,
         waitMode := { matchMode := .And, clearMode := .ClearAll } }] := by
  decide

/-! ## What a resumed `wait` does -/

/-- A pass of the loop of `wait` returns success exactly when the flag is live, the caller
is not canceled and its predicate tests true on the pattern the flag has at that moment;
what an earlier `notify` wrote into `retval[0]` plays no part. -/
theorem waitLoopBody_ok_iff (w : World) (thread : Nat) (m : WaitMode) (b : Nat)
    (timeout : Option Nat) :
    (waitLoopBody w thread m b timeout).1 = WaitStep.ret ErrorCode.ok ↔
      (w.evf.isDeleted = false ∧ (w.threads thread).retval1 = 0 ∧
        (WaitingThread.mk thread b m).test w.evf.value = true) := by
  unfold waitLoopBody
  dsimp only
  split_ifs <;> simp_all

/-- A pass of the loop of `wait` that ends at `sync_cv.wait` has found the flag live, the
caller not canceled, no match and no exhausted timeout, and has stored the caller at
`position` and raised the counter. -/
theorem waitLoopBody_suspend_cases (w : World) (thread : Nat) (m : WaitMode) (b : Nat)
    (timeout : Option Nat)
    (h : (waitLoopBody w thread m b timeout).1 = WaitStep.suspend) :
    w.evf.isDeleted = false ∧ (w.threads thread).retval1 = 0 ∧
    (WaitingThread.mk thread b m).test w.evf.value = false ∧ timeout ≠ some 0 ∧
    (w.evf.attrSingle = true → w.evf.waitingThreadsCount = 0) ∧
    (if w.evf.attrSingle then 0 else w.evf.waitingThreadsCount) < w.evf.waitingThreads.length ∧
    (waitLoopBody w thread m b timeout).2 =
      { w with evf := { w.evf with
          waitingThreadsCount := (w.evf.waitingThreadsCount + 1) % 2 ^ 32
          waitingThreads := w.evf.waitingThreads.set
            (if w.evf.attrSingle then 0 else w.evf.waitingThreadsCount)
            { thread := thread, bitPattern := b, waitMode := m } } } := by
  by_cases c1 : w.evf.isDeleted = true
  · simp [waitLoopBody, c1] at h
  by_cases c2 : (w.threads thread).retval1 = 0
  swap
  · simp [waitLoopBody, c1, c2] at h
  by_cases c3 : (WaitingThread.mk thread b m).test w.evf.value = true
  · simp [waitLoopBody, c1, c2, c3] at h
  by_cases c4 : timeout = some 0
  · simp [waitLoopBody, c1, c2, c3, c4] at h
  by_cases c5 : w.evf.attrSingle = true ∧ w.evf.waitingThreadsCount ≠ 0
  · simp [waitLoopBody, c1, c2, c3, c4, c5.1, c5.2] at h
  by_cases c6 : w.evf.waitingThreads.length ≤
      (if w.evf.attrSingle then 0 else w.evf.waitingThreadsCount)
  · have c5b : ¬ (w.evf.attrSingle = true ∧ ¬ w.evf.waitingThreadsCount = 0) := c5
    simp [waitLoopBody, c1, c2, c3, c4, c5b, c6] at h
  · have c5b : ¬ (w.evf.attrSingle = true ∧ ¬ w.evf.waitingThreadsCount = 0) := c5
    refine ⟨by simpa using c1, c2, by simpa using c3, c4, ?_, by omega, ?_⟩
    · intro hs
      by_contra hne
      exact c5 ⟨hs, hne⟩
    · simp [waitLoopBody, c1, c2, c3, c4, c5b, c6]

/-- On a `SINGLE` flag the pass that follows a suspension of the same caller, in the state
that suspension left, with no match and time remaining, returns `PERM`: the caller is
turned away by its own entry. -/
theorem waitLoopBody_single_after_suspend (w : World) (thread : Nat) (m : WaitMode)
    (b : Nat) (timeout timeout2 : Option Nat)
    (h : (waitLoopBody w thread m b timeout).1 = WaitStep.suspend)
    (hsingle : w.evf.attrSingle = true) (htime : timeout2 ≠ some 0) :
    (waitLoopBody (waitLoopBody w thread m b timeout).2 thread m b timeout2).1 =
      WaitStep.ret ErrorCode.PERM := by
  obtain ⟨h1, h2, h3, _, h5, _, h7⟩ := waitLoopBody_suspend_cases w thread m b timeout h
  have hz := h5 hsingle
  have hcount : (waitLoopBody w thread m b timeout).2.evf.waitingThreadsCount ≠ 0 := by
    rw [h7]
    show (w.evf.waitingThreadsCount + 1) % 2 ^ 32 ≠ 0
    rw [hz]; decide
  rw [waitLoopBody_perm (waitLoopBody w thread m b timeout).2 thread m b timeout2
    (by rw [h7]; exact h1) (by rw [h7]; exact h2) (by rw [h7]; exact h3) htime
    (by rw [h7]; exact hsingle) hcount]

/-- On a flag without `SINGLE` the pass that follows a suspension of the same caller, in
the state that suspension left, with no match, time remaining and room in the array, is
suspended again with a second entry: slots `count` and `count + 1` both hold the caller. -/
theorem waitLoopBody_plain_after_suspend (w : World) (thread : Nat) (m : WaitMode)
    (b : Nat) (timeout timeout2 : Option Nat)
    (h : (waitLoopBody w thread m b timeout).1 = WaitStep.suspend)
    (hsingle : w.evf.attrSingle = false) (htime : timeout2 ≠ some 0)
    (hroom : w.evf.waitingThreadsCount + 1 < w.evf.waitingThreads.length)
    (hfit : w.evf.waitingThreads.length < 2 ^ 32) :
    (waitLoopBody (waitLoopBody w thread m b timeout).2 thread m b timeout2).1 =
      WaitStep.suspend ∧
    (waitLoopBody (waitLoopBody w thread m b timeout).2 thread m b
      timeout2).2.evf.waitingThreadsCount = w.evf.waitingThreadsCount + 2 ∧
    (waitLoopBody (waitLoopBody w thread m b timeout).2 thread m b
      timeout2).2.evf.waitingThreads[w.evf.waitingThreadsCount]? =
        some { thread := thread, bitPattern := b, waitMode := m } ∧
    (waitLoopBody (waitLoopBody w thread m b timeout).2 thread m b
      timeout2).2.evf.waitingThreads[w.evf.waitingThreadsCount + 1]? =
        some { thread := thread, bitPattern := b, waitMode := m } := by
  obtain ⟨h1, h2, h3, _, _, _, h7⟩ := waitLoopBody_suspend_cases w thread m b timeout h
  rw [h7]
  have hm1 : (w.evf.waitingThreadsCount + 1) % 2 ^ 32 = w.evf.waitingThreadsCount + 1 :=
    Nat.mod_eq_of_lt (by omega)
  have hm2 : (w.evf.waitingThreadsCount + 1 + 1) % 2 ^ 32 = w.evf.waitingThreadsCount + 2 :=
    Nat.mod_eq_of_lt (by omega)
  simp only [waitLoopBody, h1, h2, h3, hsingle, htime, hm1, hm2, Bool.false_eq_true,
    if_false, ne_eq, not_true_eq_false, false_and, List.length_set, ge_iff_le,
    show ¬ (w.evf.waitingThreads.length ≤ w.evf.waitingThreadsCount + 1) by omega]
  refine ⟨trivial, trivial, ?_, ?_⟩
  · rw [List.getElem?_set_ne (by omega), List.getElem?_set_self (by omega)]
  · rw [List.getElem?_set_self (by simp; omega)]

end orbis
